import Mathlib

/-!
# Authentication and refresh-token lifecycle of the Go backend template

A shallow embedding of `internal/models`, `internal/utils/token.go`,
`internal/services/auth.go`, `internal/services/user.go` and the handlers of
`internal/api/handlers/auth.go`, with a statement-by-statement reading of
`RefreshTokens` for interleaved calls and a model of the access-token codec
(`utils.GenerateToken`, `utils.ValidateToken`) after the specification.

Modelling conventions.

* The database behind `*gorm.DB` is an explicit value `DB` that every operation
  takes and returns.  Both tables carry a `gorm.DeletedAt` column, so gorm
  soft-deletes: a delete stamps `deleted_at`, and every query adds
  `deleted_at IS NULL`.  A row is *live* when its `DeletedAt` is `none`.
* Every database statement takes the outcome reported by the driver as an input
  `fault : Option String`: `none` means the statement is executed, `some d` means
  it fails with the error `d` and has no effect.
* Clock readings, the random source, bcrypt and the JWT codec `utils.GenerateToken`
  are inputs of the call that uses them.
* Instants and `time.Duration` values are integers (nanoseconds) and `time.Time.Add` is
  integer addition; `uint` keys are natural numbers.
-/

set_option autoImplicit false

namespace GoBase

/-! ## internal/models -/

/-- An instant of the wall clock, in nanoseconds. -/
abbrev Time := Int

/-- Go `time.Duration`, in nanoseconds. -/
abbrev Duration := Int

/-- Go `error` values met in the embedded code. -/
inductive Err where
  /-- The value of `errors.New(s)`. -/
  | msg (s : String)
  /-- The value `gorm.ErrRecordNotFound`. -/
  | recordNotFound
  /-- The value `gorm.ErrMissingWhereClause`. -/
  | missingWhereClause
  /-- An error reported by the database driver. -/
  | store (detail : String)
  /-- An error of a library called by the code (crypto/rand, bcrypt, jwt, echo). -/
  | lib (detail : String)
  deriving DecidableEq, Repr

deriving instance DecidableEq for Except

/-- Go `models.UserRole`, a string type. -/
abbrev UserRole := String

/-- Constant `models.RoleUser`. -/
def RoleUser : UserRole := "user"

/-- Constant `models.RoleAdmin`. -/
def RoleAdmin : UserRole := "admin"

/-- Row of the `users` table (`models.User`); `Password` holds the bcrypt hash. -/
structure User where
  ID : Nat
  Email : String
  Password : String
  FullName : String
  PhoneNumber : String
  Avatar : String
  Role : UserRole
  IsActive : Bool
  IsEmailVerified : Bool
  LastLoginAt : Option Time
  CreatedAt : Time
  UpdatedAt : Time
  DeletedAt : Option Time
  deriving DecidableEq, Repr

/-- Row of the `refresh_tokens` table (`models.RefreshToken`). -/
structure RefreshToken where
  ID : Nat
  UserID : Nat
  Token : String
  ExpiresAt : Time
  CreatedAt : Time
  DeletedAt : Option Time
  deriving DecidableEq, Repr

/-- `RefreshToken.IsExpired`: `time.Now().After(rt.ExpiresAt)`, with the clock reading
passed in. -/
def RefreshToken.IsExpired (rt : RefreshToken) (now : Time) : Bool :=
  decide (rt.ExpiresAt < now)

/-- A refresh-token row is live when it has not been soft-deleted. -/
def RefreshToken.live (rt : RefreshToken) : Bool :=
  rt.DeletedAt.isNone

/-- A user row is live when it has not been soft-deleted. -/
def User.live (u : User) : Bool :=
  u.DeletedAt.isNone

/-- The bcrypt verifier: `CompareHashAndPassword hash password` is `true` exactly when
`bcrypt.CompareHashAndPassword` returns a nil error. -/
structure Bcrypt where
  CompareHashAndPassword : String → String → Bool

/-- `User.CheckPassword`. -/
def User.CheckPassword (bcrypt : Bcrypt) (u : User) (password : String) : Bool :=
  bcrypt.CompareHashAndPassword u.Password password

/-- `User.UpdatePassword`; `GenerateFromPassword` is the (salted) bcrypt hashing of this
call. On failure the receiver is left as it was. -/
def User.UpdatePassword (GenerateFromPassword : String → Except Err String) (u : User)
    (newPassword : String) : Except Err User :=
  match GenerateFromPassword newPassword with
  | .error e => .error e
  | .ok hashedPassword => .ok { u with Password := hashedPassword }

/-- `models.UserResponse`. -/
structure UserResponse where
  ID : Nat
  Email : String
  FullName : String
  PhoneNumber : String
  Avatar : String
  Role : UserRole
  IsActive : Bool
  IsEmailVerified : Bool
  LastLoginAt : Option Time
  CreatedAt : Time
  UpdatedAt : Time
  deriving DecidableEq, Repr

/-- `User.ToResponse`. -/
def User.ToResponse (u : User) : UserResponse :=
  { ID := u.ID, Email := u.Email, FullName := u.FullName, PhoneNumber := u.PhoneNumber,
    Avatar := u.Avatar, Role := u.Role, IsActive := u.IsActive,
    IsEmailVerified := u.IsEmailVerified, LastLoginAt := u.LastLoginAt,
    CreatedAt := u.CreatedAt, UpdatedAt := u.UpdatedAt }

/-! ## The database as gorm presents it -/

/-- The two tables, each with the last value handed out by its id sequence. -/
structure DB where
  users : List User
  users_seq : Nat
  refresh_tokens : List RefreshToken
  refresh_tokens_seq : Nat
  deriving DecidableEq, Repr

/-- The row with the least key among the rows satisfying `p`: what gorm's `First`
selects (`ORDER BY id LIMIT 1`). -/
def firstByID {α : Type} (key : α → Nat) (p : α → Bool) : List α → Option α
  | [] => none
  | r :: rs =>
    match firstByID key p rs with
    | none => if p r then some r else none
    | some s => if p r && decide (key r ≤ key s) then some r else some s

/-- Primary keys of a table are positive, pairwise distinct and were handed out by the
sequence. -/
def keysOK (ids : List Nat) (seq : Nat) : Prop :=
  ids.Nodup ∧ ∀ i ∈ ids, 0 < i ∧ i ≤ seq

instance (ids : List Nat) (seq : Nat) : Decidable (keysOK ids seq) := by
  unfold keysOK; infer_instance

/-- Well-formed database state: the primary-key constraint of both tables holds. -/
def DB.WF (db : DB) : Prop :=
  keysOK (db.users.map User.ID) db.users_seq ∧
  keysOK (db.refresh_tokens.map RefreshToken.ID) db.refresh_tokens_seq

instance (db : DB) : Decidable db.WF := by
  unfold DB.WF; infer_instance

/-- Query `db.Where("token = ?", token).First(&tokenModel)`. -/
def DB.firstRefreshTokenWhereToken (db : DB) (fault : Option String) (token : String) :
    Except Err RefreshToken :=
  match fault with
  | some d => .error (.store d)
  | none =>
    match firstByID RefreshToken.ID (fun r => r.live && r.Token == token) db.refresh_tokens with
    | none => .error .recordNotFound
    | some r => .ok r

/-- Soft delete of one row by primary key. -/
def softDeleteByID (now : Time) (id : Nat) (r : RefreshToken) : RefreshToken :=
  if r.ID = id ∧ r.live = true then { r with DeletedAt := some now } else r

/-- Statement `db.Delete(&tokenModel)`: soft delete by the primary key of the model;
gorm refuses a delete without a condition, which is what a zero key gives. -/
def DB.deleteRefreshToken (db : DB) (fault : Option String) (now : Time)
    (tokenModel : RefreshToken) : Option Err × DB :=
  match fault with
  | some d => (some (.store d), db)
  | none =>
    if tokenModel.ID = 0 then (some .missingWhereClause, db)
    else (none, { db with
      refresh_tokens := db.refresh_tokens.map (softDeleteByID now tokenModel.ID) })

/-- Soft delete of the rows of one owner. -/
def softDeleteByUser (now : Time) (userID : Nat) (r : RefreshToken) : RefreshToken :=
  if r.UserID = userID ∧ r.live = true then { r with DeletedAt := some now } else r

/-- Statement `db.Where("user_id = ?", userID).Delete(&models.RefreshToken{})`. -/
def DB.deleteRefreshTokensWhereUserID (db : DB) (fault : Option String) (now : Time)
    (userID : Nat) : Option Err × DB :=
  match fault with
  | some d => (some (.store d), db)
  | none =>
    (none, { db with refresh_tokens := db.refresh_tokens.map (softDeleteByUser now userID) })

/-- Statement `db.Create(refreshTokenModel)` for a model whose key is unset: the row gets
the next key of the sequence and gorm stamps `CreatedAt`. The `token` column is declared
`gorm:"not null;index"`, a plain index, so no uniqueness is checked. -/
def DB.createRefreshToken (db : DB) (fault : Option String) (now : Time)
    (userID : Nat) (token : String) (expiresAt : Time) : Except Err RefreshToken × DB :=
  match fault with
  | some d => (.error (.store d), db)
  | none =>
    let row : RefreshToken :=
      { ID := db.refresh_tokens_seq + 1, UserID := userID, Token := token,
        ExpiresAt := expiresAt, CreatedAt := now, DeletedAt := none }
    (.ok row, { db with
      refresh_tokens := db.refresh_tokens ++ [row],
      refresh_tokens_seq := db.refresh_tokens_seq + 1 })

/-- Query `db.Where("email = ?", email).First(&user)`. -/
def DB.firstUserWhereEmail (db : DB) (fault : Option String) (email : String) :
    Except Err User :=
  match fault with
  | some d => .error (.store d)
  | none =>
    match firstByID User.ID (fun u => u.live && u.Email == email) db.users with
    | none => .error .recordNotFound
    | some u => .ok u

/-- Query `db.First(&user, id)` with a numeric key. -/
def DB.firstUserByID (db : DB) (fault : Option String) (id : Int) : Except Err User :=
  match fault with
  | some d => .error (.store d)
  | none =>
    match firstByID User.ID (fun u => u.live && decide ((u.ID : Int) = id)) db.users with
    | none => .error .recordNotFound
    | some u => .ok u

/-- Statement `db.Save(user)` for a model read from the table: every column of the row
with the model's key is written and `UpdatedAt` is stamped. -/
def DB.saveUser (db : DB) (fault : Option String) (now : Time) (user : User) :
    Option Err × DB :=
  match fault with
  | some d => (some (.store d), db)
  | none =>
    (none, { db with
      users := db.users.map (fun r => if r.ID = user.ID then { user with UpdatedAt := now } else r) })

/-! ## internal/utils/token.go -/

/-- The table `hextable` of `encoding/hex`. -/
def hextable : List Char := "0123456789abcdef".toList

/-- The two characters `hextable[v>>4]`, `hextable[v&0x0f]` that `hex.Encode` writes for
the byte `v`. -/
def hexByte (v : Fin 256) : List Char :=
  [hextable.getD (v.val >>> 4) '0', hextable.getD (v.val &&& 0x0f) '0']

/-- Go `hex.EncodeToString`. -/
def EncodeToString (src : List (Fin 256)) : String :=
  String.mk (src.flatMap hexByte)

/-- The 32-byte buffer `bytes` after a successful `rand.Read(bytes)`. -/
abbrev Bytes32 := { b : List (Fin 256) // b.length = 32 }

/-- `utils.GenerateRefreshToken`; `read` is the outcome of `rand.Read` on the 32-byte
buffer. -/
def GenerateRefreshToken (read : Except Err Bytes32) : Except Err String :=
  match read with
  | .error err => .error err
  | .ok bytes => .ok (EncodeToString bytes.val)

/-! ## internal/config -/

/-- `config.JWTConfig`. -/
structure JWTConfig where
  Secret : String
  AccessTokenDuration : Duration
  RefreshTokenDuration : Duration
  deriving DecidableEq, Repr

/-! ## internal/services/auth.go -/

/-- `services.TokenResponse`. -/
structure TokenResponse where
  AccessToken : String
  RefreshToken : String
  TokenType : String
  ExpiresIn : Int
  deriving DecidableEq, Repr

/-- `AuthService.Authenticate`; `findFault` is the driver's outcome for the lookup. -/
def AuthService.Authenticate (bcrypt : Bcrypt) (findFault : Option String) (db : DB)
    (email password : String) : Except Err User :=
  match db.firstUserWhereEmail findFault email with
  | .error _ => .error (.msg "invalid credentials")
  | .ok user =>
    if !user.CheckPassword bcrypt password then .error (.msg "invalid credentials")
    else if !user.IsActive then .error (.msg "account is inactive")
    else .ok user

/-- What one call of `AuthService.GenerateTokens` takes from outside the service.
`GenerateToken` is `utils.GenerateToken` (user id, email, role, secret, duration), clock
included; `intSeconds d` is `int(d.Seconds())`, a float64 computation of the Go runtime;
`randRead` is the outcome of `rand.Read`; `now` is `time.Now()` of the expiry
computation; `createdAt` and `createFault` belong to the insert. -/
structure IssueEnv where
  GenerateToken : Nat → String → String → String → Duration → Except Err String
  intSeconds : Duration → Int
  randRead : Except Err Bytes32
  now : Time
  createdAt : Time
  createFault : Option String

/-- `AuthService.GenerateTokens`. -/
def AuthService.GenerateTokens (jwtConfig : JWTConfig) (env : IssueEnv) (db : DB)
    (user : User) : Except Err TokenResponse × DB :=
  match env.GenerateToken user.ID user.Email user.Role jwtConfig.Secret
      jwtConfig.AccessTokenDuration with
  | .error err => (.error err, db)
  | .ok accessToken =>
    match GenerateRefreshToken env.randRead with
    | .error err => (.error err, db)
    | .ok refreshToken =>
      match db.createRefreshToken env.createFault env.createdAt user.ID refreshToken
          (env.now + jwtConfig.RefreshTokenDuration) with
      | (.error err, db1) => (.error err, db1)
      | (.ok _, db1) =>
        (.ok { AccessToken := accessToken, RefreshToken := refreshToken,
               TokenType := "Bearer",
               ExpiresIn := env.intSeconds jwtConfig.AccessTokenDuration }, db1)

/-- What one call of `AuthService.RefreshTokens` takes from outside the service: the
driver's outcome for the token lookup, the clock reading of `IsExpired`, the outcome and
timestamp of the delete, the outcome of the user lookup, and the inputs of the nested
`GenerateTokens`. -/
structure RefreshEnv where
  findTokenFault : Option String
  now : Time
  deleteFault : Option String
  deletedAt : Time
  findUserFault : Option String
  issue : IssueEnv

/-- `AuthService.RefreshTokens`. The result of either `s.db.Delete(&tokenModel)` is
dropped by the code. -/
def AuthService.RefreshTokens (jwtConfig : JWTConfig) (env : RefreshEnv) (db : DB)
    (refreshToken : String) : Except Err TokenResponse × DB :=
  match db.firstRefreshTokenWhereToken env.findTokenFault refreshToken with
  | .error _ => (.error (.msg "invalid refresh token"), db)
  | .ok tokenModel =>
    if tokenModel.IsExpired env.now then
      (.error (.msg "refresh token expired"),
        (db.deleteRefreshToken env.deleteFault env.deletedAt tokenModel).2)
    else
      match db.firstUserByID env.findUserFault (tokenModel.UserID : Int) with
      | .error _ => (.error (.msg "user not found"), db)
      | .ok user =>
        AuthService.GenerateTokens jwtConfig env.issue
          (db.deleteRefreshToken env.deleteFault env.deletedAt tokenModel).2 user

/-- `AuthService.RevokeAllRefreshTokens`. -/
def AuthService.RevokeAllRefreshTokens (fault : Option String) (now : Time) (db : DB)
    (userID : Nat) : Option Err × DB :=
  db.deleteRefreshTokensWhereUserID fault now userID

/-! ## internal/services/user.go -/

/-- Go conversion `int(userID)` of a 64-bit `uint`. -/
def uintToInt (n : Nat) : Int :=
  if n % 2 ^ 64 < 2 ^ 63 then ((n % 2 ^ 64 : Nat) : Int) else ((n % 2 ^ 64 : Nat) : Int) - 2 ^ 64

/-- `UserService.GetByID`; the argument is the integer whose decimal text the caller
passes (`strconv.Itoa(int(userID))`), which gorm reads as a primary key. -/
def UserService.GetByID (findFault : Option String) (db : DB) (id : Int) : Except Err User :=
  match db.firstUserByID findFault id with
  | .error .recordNotFound => .error (.msg "user not found")
  | .error err => .error err
  | .ok user => .ok user

/-- What one call of `UserService.UpdatePassword` takes from outside the service. -/
structure UpdatePasswordEnv where
  findFault : Option String
  GenerateFromPassword : String → Except Err String
  saveFault : Option String
  savedAt : Time

/-- `UserService.UpdatePassword`. -/
def UserService.UpdatePassword (env : UpdatePasswordEnv) (db : DB) (userID : Nat)
    (newPassword : String) : Option Err × DB :=
  match UserService.GetByID env.findFault db (uintToInt userID) with
  | .error err => (some err, db)
  | .ok user =>
    match user.UpdatePassword env.GenerateFromPassword newPassword with
    | .error err => (some err, db)
    | .ok user1 => db.saveUser env.saveFault env.savedAt user1

/-! ## internal/api/responses -/

/-- What the handlers put in the `Data` field of a response. -/
inductive Payload where
  | tokens (t : TokenResponse)
  | userAndTokens (user : UserResponse) (tokens : TokenResponse)
  deriving DecidableEq, Repr

/-- The HTTP status and the `responses.Response` body written by `c.JSON`. -/
structure Response where
  Status : Nat
  Success : Bool
  Message : String
  Data : Option Payload
  Errors : Option (List String)
  deriving DecidableEq, Repr

/-- `responses.Success`. -/
def responses.Success (statusCode : Nat) (message : String) (data : Option Payload) :
    Response :=
  { Status := statusCode, Success := true, Message := message, Data := data, Errors := none }

/-- `responses.Error`. -/
def responses.Error (statusCode : Nat) (message : String) (errors : Option (List String)) :
    Response :=
  { Status := statusCode, Success := false, Message := message, Data := none,
    Errors := errors }

/-- `responses.BadRequest` (`http.StatusBadRequest`). -/
def responses.BadRequest (message : String) : Response := responses.Error 400 message none

/-- `responses.Unauthorized` (`http.StatusUnauthorized`). -/
def responses.Unauthorized (message : String) : Response := responses.Error 401 message none

/-- `responses.NotFound` (`http.StatusNotFound`). -/
def responses.NotFound (message : String) : Response := responses.Error 404 message none

/-- `responses.InternalError` (`http.StatusInternalServerError`). -/
def responses.InternalError (message : String) : Response :=
  responses.Error 500 message none

/-- `responses.ValidationError`; the argument lists `err.Field() + " " + err.Tag()` of
each validation error. -/
def responses.ValidationError (errors : List String) : Response :=
  responses.Error 400 "Validation failed" (some errors)

/-! ## internal/api/handlers/auth.go -/

/-- `AuthHandler.Logout`; `user_id` is `c.Get("user_id").(uint)`. -/
def AuthHandler.Logout (fault : Option String) (now : Time) (db : DB) (user_id : Nat) :
    Response × DB :=
  match AuthService.RevokeAllRefreshTokens fault now db user_id with
  | (some _, db1) => (responses.InternalError "Failed to logout", db1)
  | (none, db1) => (responses.Success 200 "Logged out successfully" none, db1)

/-- The fields of `requests.ChangePasswordRequest` that the handler reads. -/
structure ChangePasswordRequest where
  OldPassword : String
  NewPassword : String
  deriving DecidableEq, Repr

/-- What one call of `AuthHandler.ChangePassword` takes from outside the handler: the
outcome of `c.Bind`, the outcome of `c.Validate` (the rendered validation errors, if
any), `c.Get("user_id").(uint)`, the driver's outcome for the handler's own lookup, the
inputs of `UserService.UpdatePassword`, and the outcome and timestamp of the revocation. -/
structure ChangePasswordEnv where
  Bind : Except Err ChangePasswordRequest
  Validate : ChangePasswordRequest → Option (List String)
  user_id : Nat
  findFault : Option String
  update : UpdatePasswordEnv
  revokeFault : Option String
  revokedAt : Time

/-- `AuthHandler.ChangePassword`. The error returned by
`h.authService.RevokeAllRefreshTokens(userID)` is dropped by the code. -/
def AuthHandler.ChangePassword (bcrypt : Bcrypt) (env : ChangePasswordEnv) (db : DB) :
    Response × DB :=
  match env.Bind with
  | .error _ => (responses.BadRequest "Invalid request body", db)
  | .ok req =>
    match env.Validate req with
    | some errors => (responses.ValidationError errors, db)
    | none =>
      match UserService.GetByID env.findFault db (uintToInt env.user_id) with
      | .error _ => (responses.NotFound "User not found", db)
      | .ok user =>
        if !user.CheckPassword bcrypt req.OldPassword then
          (responses.BadRequest "Invalid old password", db)
        else
          match UserService.UpdatePassword env.update db env.user_id req.NewPassword with
          | (some _, db1) => (responses.InternalError "Failed to update password", db1)
          | (none, db1) =>
            (responses.Success 200 "Password changed successfully" none,
              (AuthService.RevokeAllRefreshTokens env.revokeFault env.revokedAt db1
                env.user_id).2)

/-! ## The Go return values and the inverse of the hex encoding -/

/-- The two values `(string, error)` that `utils.GenerateRefreshToken` returns in Go:
`"", err` when `rand.Read` fails, `hex.EncodeToString(bytes), nil` otherwise. -/
def GenerateRefreshToken.returned (read : Except Err Bytes32) : String × Option Err :=
  match read with
  | .error err => ("", some err)
  | .ok bytes => (EncodeToString bytes.val, none)

/-- The position of a character in `hextable` (16 when it is not a hex digit). -/
def fromHexChar (c : Char) : Nat :=
  hextable.indexOf c

/-- The byte value that two hex digits stand for. -/
def unhexByte (hi lo : Char) : Nat :=
  16 * fromHexChar hi + fromHexChar lo

/-- Reading a list of characters back, two digits per byte. -/
def DecodeChars : List Char → List Nat
  | hi :: lo :: rest => unhexByte hi lo :: DecodeChars rest
  | _ => []

/-! ## Sequences of calls of the token service -/

/-- One call of `AuthService` that touches the refresh-token table, with what the call
takes from outside. -/
inductive Call where
  | GenerateTokens (env : IssueEnv) (user : User)
  | RefreshTokens (env : RefreshEnv) (refreshToken : String)
  | RevokeAllRefreshTokens (fault : Option String) (now : Time) (userID : Nat)

/-- The store after a call. -/
def Call.run (jwtConfig : JWTConfig) (db : DB) : Call → DB
  | .GenerateTokens env user => (AuthService.GenerateTokens jwtConfig env db user).2
  | .RefreshTokens env refreshToken =>
    (AuthService.RefreshTokens jwtConfig env db refreshToken).2
  | .RevokeAllRefreshTokens fault now userID =>
    (AuthService.RevokeAllRefreshTokens fault now db userID).2

/-- The store after a sequence of calls, first call first. -/
def runCalls (jwtConfig : JWTConfig) (db : DB) (calls : List Call) : DB :=
  calls.foldl (Call.run jwtConfig) db

/-- The token values of the live rows, in table order. -/
def DB.liveTokens (db : DB) : List String :=
  (db.refresh_tokens.filter RefreshToken.live).map RefreshToken.Token

/-- The bytes delivered by the random source, if any, encode to a value that no live row
of the store carries. -/
def freshRead (db : DB) (read : Except Err Bytes32) : Bool :=
  match read with
  | .error _ => true
  | .ok bytes => !(db.liveTokens.contains (EncodeToString bytes.val))

/-- The random bytes supplied to a call are fresh for the store the call starts from. -/
def Call.fresh (db : DB) : Call → Bool
  | .GenerateTokens env _ => freshRead db env.randRead
  | .RefreshTokens env _ => freshRead db env.issue.randRead
  | .RevokeAllRefreshTokens _ _ _ => true

/-- Every call of the sequence is supplied fresh random bytes. -/
def freshCalls (jwtConfig : JWTConfig) : DB → List Call → Bool
  | _, [] => true
  | db, c :: cs => c.fresh db && freshCalls jwtConfig (c.run jwtConfig db) cs

/-! ## Registration, login and refresh at the HTTP boundary -/

/-- Statement
`db.Model(&models.User{}).Where("id = ?", userID).Update("last_login_at", &now)`:
the live row with this key gets `last_login_at`, and gorm stamps `updated_at`. -/
def DB.updateLastLogin (db : DB) (fault : Option String) (now stamp : Time) (userID : Nat) :
    Option Err × DB :=
  match fault with
  | some d => (some (.store d), db)
  | none =>
    (none, { db with
      users := db.users.map (fun r =>
        if r.ID = userID ∧ r.live = true then
          { r with LastLoginAt := some now, UpdatedAt := stamp }
        else r) })

/-- `UserService.UpdateLastLogin`; `now` is its `time.Now()`. -/
def UserService.UpdateLastLogin (fault : Option String) (now stamp : Time) (db : DB)
    (userID : Nat) : Option Err × DB :=
  db.updateLastLogin fault now stamp userID

/-- The fields of `requests.LoginRequest` that the handler reads. -/
structure LoginRequest where
  Email : String
  Password : String
  deriving DecidableEq, Repr

/-- What one call of `AuthHandler.Login` takes from outside the handler: the outcomes of
`c.Bind` and `c.Validate`, the driver's outcome for the lookup of `Authenticate`, the
inputs of `GenerateTokens`, and the outcome and the two clock readings of
`UpdateLastLogin`. -/
structure LoginEnv where
  Bind : Except Err LoginRequest
  Validate : LoginRequest → Option (List String)
  findFault : Option String
  issue : IssueEnv
  lastLoginFault : Option String
  lastLoginAt : Time
  lastLoginStamp : Time

/-- `AuthHandler.Login`. The result of `h.userService.UpdateLastLogin(user.ID)` is
dropped by the code, and the response is built from the account as `Authenticate`
returned it. -/
def AuthHandler.Login (bcrypt : Bcrypt) (jwtConfig : JWTConfig) (env : LoginEnv) (db : DB) :
    Response × DB :=
  match env.Bind with
  | .error _ => (responses.BadRequest "Invalid request body", db)
  | .ok req =>
    match env.Validate req with
    | some errors => (responses.ValidationError errors, db)
    | none =>
      match AuthService.Authenticate bcrypt env.findFault db req.Email req.Password with
      | .error _ => (responses.Unauthorized "Invalid credentials", db)
      | .ok user =>
        match AuthService.GenerateTokens jwtConfig env.issue db user with
        | (.error _, db1) => (responses.InternalError "Failed to generate tokens", db1)
        | (.ok tokens, db1) =>
          (responses.Success 200 "Login successful"
              (some (.userAndTokens user.ToResponse tokens)),
            (UserService.UpdateLastLogin env.lastLoginFault env.lastLoginAt
              env.lastLoginStamp db1 user.ID).2)

/-- The field of `requests.RefreshTokenRequest` that the handler reads. -/
structure RefreshTokenRequest where
  RefreshToken : String
  deriving DecidableEq, Repr

/-- What one call of `AuthHandler.RefreshToken` takes from outside the handler. -/
structure RefreshTokenEnv where
  Bind : Except Err RefreshTokenRequest
  Validate : RefreshTokenRequest → Option (List String)
  refresh : RefreshEnv

/-- `AuthHandler.RefreshToken`. -/
def AuthHandler.RefreshToken (jwtConfig : JWTConfig) (env : RefreshTokenEnv) (db : DB) :
    Response × DB :=
  match env.Bind with
  | .error _ => (responses.BadRequest "Invalid request body", db)
  | .ok req =>
    match env.Validate req with
    | some errors => (responses.ValidationError errors, db)
    | none =>
      match AuthService.RefreshTokens jwtConfig env.refresh db req.RefreshToken with
      | (.error _, db1) => (responses.Unauthorized "Invalid refresh token", db1)
      | (.ok tokens, db1) =>
        (responses.Success 200 "Token refreshed successfully" (some (.tokens tokens)), db1)

/-! ## The access-token codec -/

/-- Modelled from the spec: the claims of an access token, `utils.Claims` of
`internal/utils/jwt.go`, which is not among the sources. The spec lists account id,
email, role, issued-at and expires-at; the test and the middleware read `UserID`, `Email`
and `Role`. -/
structure Claims where
  UserID : Nat
  Email : String
  Role : String
  IssuedAt : Time
  ExpiresAt : Time
  deriving DecidableEq, Repr

/-- Modelled from the spec: the failure kinds of access-token verification
(`TokenMalformed`, `TokenSignatureMismatch`, `TokenExpired`), returned by
`utils.ValidateToken` of the missing `internal/utils/jwt.go`. -/
inductive TokenError where
  | TokenMalformed
  | TokenSignatureMismatch
  | TokenExpired
  deriving DecidableEq, Repr

/-- Modelled from the spec: the primitives that the missing `internal/utils/jwt.go`
takes from its JWT library. `encode` is the URL-safe text encoding of header and claims
and `decode` reads it; `sign secret payload` is the signature over the entire encoded
payload; `join` puts payload and signature together into the token string and `split`
takes a token string apart. -/
structure TokenCodec where
  encode : Claims → String
  decode : String → Option Claims
  sign : String → String → String
  join : String → String → String
  split : String → Option (String × String)

/-- Modelled from the spec: `utils.GenerateToken` of the missing
`internal/utils/jwt.go`. It encodes the claims together with issued-at `now` and the
computed expiry `now + duration` and signs the encoded payload with the secret. -/
def GenerateToken (codec : TokenCodec) (now : Time) (userID : Nat) (email role secret : String)
    (duration : Duration) : Except Err String :=
  let payload := codec.encode
    { UserID := userID, Email := email, Role := role, IssuedAt := now,
      ExpiresAt := now + duration }
  .ok (codec.join payload (codec.sign secret payload))

/-- Modelled from the spec: `utils.ValidateToken` of the missing
`internal/utils/jwt.go`. It fails with `TokenMalformed` if the structural encoding is
invalid, with `TokenSignatureMismatch` if the signature does not match the signature
recomputed over the payload with the secret, with `TokenExpired` if the current time is
at or after the embedded expiry, and returns the claims otherwise. -/
def ValidateToken (codec : TokenCodec) (now : Time) (tokenString secret : String) :
    Except TokenError Claims :=
  match codec.split tokenString with
  | none => .error .TokenMalformed
  | some (payload, signature) =>
    match codec.decode payload with
    | none => .error .TokenMalformed
    | some claims =>
      if signature ≠ codec.sign secret payload then .error .TokenSignatureMismatch
      else if claims.ExpiresAt ≤ now then .error .TokenExpired
      else .ok claims

/-- The codec reads back what it writes: a token assembled from encoded claims and a
signature over them splits into that payload and that signature, and the payload decodes
to the claims. -/
def TokenCodec.lawful (codec : TokenCodec) : Prop :=
  ∀ (claims : Claims) (secret : String),
    codec.split (codec.join (codec.encode claims) (codec.sign secret (codec.encode claims)))
      = some (codec.encode claims, codec.sign secret (codec.encode claims)) ∧
    codec.decode (codec.encode claims) = some claims

/-! ## RefreshTokens, one database statement at a time -/

/-- Where a `RefreshTokens` call stands between two of its database statements, with the
local variables it holds: before the token lookup; before the delete of an expired
token; before the user lookup; before the delete of the consumed token; before
`GenerateTokens` (whose one statement is the insert); after `return`. -/
inductive RefreshTask where
  | start
  | expired (tokenModel : RefreshToken)
  | getUser (tokenModel : RefreshToken)
  | deleteOld (tokenModel : RefreshToken) (user : User)
  | issue (user : User)
  | returned (result : Except Err TokenResponse)
  deriving DecidableEq, Repr

/-- The next database statement of a `RefreshTokens` call, together with the statement-free
code that follows it up to the next statement. Each gorm call of the source is a
statement of its own: the code opens no transaction. A call that has returned stays as
it is. -/
def AuthService.RefreshTokens.step (jwtConfig : JWTConfig) (env : RefreshEnv)
    (refreshToken : String) (db : DB) : RefreshTask → RefreshTask × DB
  | .start =>
    match db.firstRefreshTokenWhereToken env.findTokenFault refreshToken with
    | .error _ => (.returned (.error (.msg "invalid refresh token")), db)
    | .ok tokenModel =>
      if tokenModel.IsExpired env.now then (.expired tokenModel, db)
      else (.getUser tokenModel, db)
  | .expired tokenModel =>
    (.returned (.error (.msg "refresh token expired")),
      (db.deleteRefreshToken env.deleteFault env.deletedAt tokenModel).2)
  | .getUser tokenModel =>
    match db.firstUserByID env.findUserFault (tokenModel.UserID : Int) with
    | .error _ => (.returned (.error (.msg "user not found")), db)
    | .ok user => (.deleteOld tokenModel user, db)
  | .deleteOld tokenModel user =>
    (.issue user, (db.deleteRefreshToken env.deleteFault env.deletedAt tokenModel).2)
  | .issue user =>
    (.returned (AuthService.GenerateTokens jwtConfig env.issue db user).1,
      (AuthService.GenerateTokens jwtConfig env.issue db user).2)
  | .returned result => (.returned result, db)

/-- A call run on its own for `n` statements. -/
def AuthService.RefreshTokens.steps (jwtConfig : JWTConfig) (env : RefreshEnv)
    (refreshToken : String) : Nat → RefreshTask × DB → RefreshTask × DB
  | 0, s => s
  | n + 1, s =>
    AuthService.RefreshTokens.steps jwtConfig env refreshToken n
      (AuthService.RefreshTokens.step jwtConfig env refreshToken s.2 s.1)

/-- Two `RefreshTokens` calls on one store, interleaved statement by statement:
`false` in the schedule lets the first call execute its next statement, `true` the
second. -/
def runTwoRefreshes (jwtConfig : JWTConfig) (envA envB : RefreshEnv) (tokenA tokenB : String) :
    List Bool → RefreshTask × RefreshTask × DB → RefreshTask × RefreshTask × DB
  | [], s => s
  | false :: rest, (a, b, db) =>
    runTwoRefreshes jwtConfig envA envB tokenA tokenB rest
      ((AuthService.RefreshTokens.step jwtConfig envA tokenA db a).1, b,
       (AuthService.RefreshTokens.step jwtConfig envA tokenA db a).2)
  | true :: rest, (a, b, db) =>
    runTwoRefreshes jwtConfig envA envB tokenA tokenB rest
      (a, (AuthService.RefreshTokens.step jwtConfig envB tokenB db b).1,
       (AuthService.RefreshTokens.step jwtConfig envB tokenB db b).2)

/-! ## Sample states and inputs -/

/-- A stand-in verifier for examples: the hash of `p` is `"bcrypt:" ++ p`. -/
def sampleBcrypt : Bcrypt :=
  { CompareHashAndPassword := fun hash password => hash == "bcrypt:" ++ password }

/-- Sample account 1, active. -/
def alice : User :=
  { ID := 1, Email := "alice@example.com", Password := "bcrypt:correcthorse1",
    FullName := "Alice", PhoneNumber := "", Avatar := "", Role := RoleUser,
    IsActive := true, IsEmailVerified := false, LastLoginAt := none,
    CreatedAt := 0, UpdatedAt := 0, DeletedAt := none }

/-- Sample account 2, active. -/
def bob : User :=
  { ID := 2, Email := "bob@example.com", Password := "bcrypt:batterystaple2",
    FullName := "Bob", PhoneNumber := "", Avatar := "", Role := RoleUser,
    IsActive := true, IsEmailVerified := false, LastLoginAt := none,
    CreatedAt := 0, UpdatedAt := 0, DeletedAt := none }

/-- Thirty-two bytes `0x00`. -/
def bytes00 : Bytes32 := ⟨List.replicate 32 0, by decide⟩

/-- Thirty-two bytes `0xff`. -/
def bytesFF : Bytes32 := ⟨List.replicate 32 255, by decide⟩

/-- The refresh token that `bytes00` encodes to. -/
def token00 : String := "0000000000000000000000000000000000000000000000000000000000000000"

/-- The refresh token that `bytesFF` encodes to. -/
def tokenFF : String := "ffffffffffffffffffffffffffffffffffffffffffffffffffffffffffffffff"

/-- Sample configuration: 15 minutes and 7 days, in nanoseconds. -/
def sampleConfig : JWTConfig :=
  { Secret := "secret-key-change-in-production", AccessTokenDuration := 900000000000,
    RefreshTokenDuration := 604800000000000 }

/-- Inputs of a `GenerateTokens` call at instant `now` in which every library call and the
insert succeed and the random source yields `read`. -/
def sampleIssue (now : Time) (read : Bytes32) : IssueEnv :=
  { GenerateToken := fun _ email _ _ _ => .ok ("jwt-for-" ++ email),
    intSeconds := fun d => d / 1000000000,
    randRead := .ok read, now := now, createdAt := now, createFault := none }

/-- Inputs of a `RefreshTokens` call at instant `now` in which every statement is
executed. -/
def sampleRefresh (now : Time) (read : Bytes32) : RefreshEnv :=
  { findTokenFault := none, now := now, deleteFault := none, deletedAt := now,
    findUserFault := none, issue := sampleIssue now read }

/-- One account with one live token `token00` that expires at instant 1000. -/
def dbOne : DB :=
  { users := [alice], users_seq := 1,
    refresh_tokens := [{ ID := 1, UserID := 1, Token := token00, ExpiresAt := 1000,
                         CreatedAt := 0, DeletedAt := none }],
    refresh_tokens_seq := 1 }

/-- One account holding two live rows that carry the same token value `token00`. -/
def dbTwin : DB :=
  { users := [alice], users_seq := 1,
    refresh_tokens :=
      [{ ID := 1, UserID := 1, Token := token00, ExpiresAt := 1000, CreatedAt := 0,
         DeletedAt := none },
       { ID := 2, UserID := 1, Token := token00, ExpiresAt := 1000, CreatedAt := 0,
         DeletedAt := none }],
    refresh_tokens_seq := 2 }

/-- The store `dbOne` after the account was (soft-)deleted at instant 5: its token row is
still live. -/
def dbOrphan : DB :=
  { dbOne with users := [{ alice with DeletedAt := some 5 }] }

/-- Two accounts whose live rows carry the same token value `token00`. -/
def dbShared : DB :=
  { users := [alice, bob], users_seq := 2,
    refresh_tokens :=
      [{ ID := 1, UserID := 1, Token := token00, ExpiresAt := 1000, CreatedAt := 0,
         DeletedAt := none },
       { ID := 2, UserID := 2, Token := token00, ExpiresAt := 1000, CreatedAt := 0,
         DeletedAt := none }],
    refresh_tokens_seq := 2 }

/-- Inputs of a `ChangePassword` request of account 1 at instant 50: the body binds and
validates, every lookup and the save are executed, hashing puts `"bcrypt:"` in front,
and the revocation statement has the outcome `revokeFault`. -/
def sampleChangePassword (oldPassword newPassword : String) (revokeFault : Option String) :
    ChangePasswordEnv :=
  { Bind := .ok { OldPassword := oldPassword, NewPassword := newPassword },
    Validate := fun _ => none,
    user_id := 1,
    findFault := none,
    update := { findFault := none,
                GenerateFromPassword := fun p => .ok ("bcrypt:" ++ p),
                saveFault := none, savedAt := 50 },
    revokeFault := revokeFault,
    revokedAt := 50 }

/-- Thirty-two bytes `0xa5`. -/
def bytesA5 : Bytes32 := ⟨List.replicate 32 165, by decide⟩

/-- The refresh token that `bytesA5` encodes to. -/
def tokenA5 : String := "a5a5a5a5a5a5a5a5a5a5a5a5a5a5a5a5a5a5a5a5a5a5a5a5a5a5a5a5a5a5a5a5"

/-- Two accounts: account 1 holds the live token `token00` and an already deleted row,
account 2 holds the live token `tokenFF`. -/
def dbPair : DB :=
  { users := [alice, bob], users_seq := 2,
    refresh_tokens :=
      [{ ID := 1, UserID := 1, Token := tokenA5, ExpiresAt := 900, CreatedAt := 0,
         DeletedAt := some 3 },
       { ID := 2, UserID := 2, Token := tokenFF, ExpiresAt := 1000, CreatedAt := 0,
         DeletedAt := none },
       { ID := 3, UserID := 1, Token := token00, ExpiresAt := 1000, CreatedAt := 3,
         DeletedAt := none }],
    refresh_tokens_seq := 3 }

/-- One account and no refresh-token row. -/
def dbNoTokens : DB :=
  { users := [alice], users_seq := 1, refresh_tokens := [], refresh_tokens_seq := 0 }

/-- Inputs of a `Login` request at instant `now` whose body binds and validates and in
which every statement is executed. -/
def sampleLogin (email password : String) (now : Time) : LoginEnv :=
  { Bind := .ok { Email := email, Password := password },
    Validate := fun _ => none,
    findFault := none,
    issue := sampleIssue now bytesFF,
    lastLoginFault := none, lastLoginAt := now, lastLoginStamp := now }

/-- Inputs of a `RefreshToken` request at instant `now` whose body binds and validates and
in which every statement is executed. -/
def sampleRefreshRequest (refreshToken : String) (now : Time) : RefreshTokenEnv :=
  { Bind := .ok { RefreshToken := refreshToken },
    Validate := fun _ => none,
    refresh := sampleRefresh now bytesFF }

/-- The store `dbOne` with the account deactivated. -/
def dbInactive : DB :=
  { dbOne with users := [{ alice with IsActive := false }] }

/-- The store without any row. -/
def emptyDB : DB :=
  { users := [], users_seq := 0, refresh_tokens := [], refresh_tokens_seq := 0 }

/-- Stand-in codec for examples: a natural number in unary, closed by `0`. -/
def writeNat : Nat → List Char
  | 0 => ['0']
  | n + 1 => '1' :: writeNat n

/-- Stand-in codec for examples: reads what `writeNat` wrote and hands back the rest. -/
def readNat : List Char → Option (Nat × List Char)
  | [] => none
  | c :: cs =>
    if c = '0' then some (0, cs)
    else if c = '1' then
      match readNat cs with
      | none => none
      | some (n, rest) => some (n + 1, rest)
    else none

/-- Stand-in codec for examples: a text, preceded by its length. -/
def writeText (s : List Char) : List Char :=
  writeNat s.length ++ s

/-- Stand-in codec for examples: reads what `writeText` wrote and hands back the rest. -/
def readText (cs : List Char) : Option (List Char × List Char) :=
  match readNat cs with
  | none => none
  | some (n, rest) => if n ≤ rest.length then some (rest.take n, rest.drop n) else none

/-- Stand-in codec for examples: an integer as a sign and its magnitude. -/
def writeInt (i : Int) : List Char :=
  (if i < 0 then '-' else '+') :: writeNat i.natAbs

/-- Stand-in codec for examples: reads what `writeInt` wrote and hands back the rest. -/
def readInt : List Char → Option (Int × List Char)
  | [] => none
  | c :: cs =>
    match readNat cs with
    | none => none
    | some (n, rest) => if c = '-' then some (-(n : Int), rest) else some ((n : Int), rest)

/-- Stand-in codec for examples: the five claims one after the other. -/
def writeClaims (c : Claims) : List Char :=
  writeNat c.UserID ++ (writeText c.Email.data ++ (writeText c.Role.data ++
    (writeInt c.IssuedAt ++ writeInt c.ExpiresAt)))

/-- Stand-in codec for examples: reads what `writeClaims` wrote. -/
def readClaims (cs : List Char) : Option Claims :=
  match readNat cs with
  | none => none
  | some (userID, r1) =>
    match readText r1 with
    | none => none
    | some (email, r2) =>
      match readText r2 with
      | none => none
      | some (role, r3) =>
        match readInt r3 with
        | none => none
        | some (issuedAt, r4) =>
          match readInt r4 with
          | none => none
          | some (expiresAt, r5) =>
            if r5 = [] then
              some { UserID := userID, Email := String.mk email, Role := String.mk role,
                     IssuedAt := issuedAt, ExpiresAt := expiresAt }
            else none

/-- Stand-in codec for examples. The token is the length-prefixed payload followed by
the signature, and the signature of a payload is the secret, a bar and the payload: a
codec that reads back what it writes, nothing more. -/
def sampleCodec : TokenCodec :=
  { encode := fun c => String.mk (writeClaims c),
    decode := fun s => readClaims s.data,
    sign := fun secret payload => secret ++ ("|" ++ payload),
    join := fun payload signature => String.mk (writeText payload.data ++ signature.data),
    split := fun t =>
      match readText t.data with
      | none => none
      | some (p, s) => some (String.mk p, String.mk s) }

/-- Stand-in for examples: the key preparation of HMAC (RFC 2104), in which a secret
shorter than the block of 64 characters is filled up with zero characters. -/
def padKey (secret : List Char) : List Char :=
  secret ++ List.replicate (64 - secret.length) (Char.ofNat 0)

/-- Stand-in for examples: a checksum with 251 values, in the place of a hash. -/
def checksum (cs : List Char) : Nat :=
  cs.foldl (fun acc c => (acc * 31 + c.toNat) % 251) 7

/-- Stand-in codec for examples: the framing of `sampleCodec` with a keyed checksum as
signature. The signature has bounded size, does not show the secret, and prepares the
key as HMAC does. -/
def macCodec : TokenCodec :=
  { sampleCodec with
    sign := fun secret payload =>
      String.mk (writeNat (checksum (padKey secret.data ++ payload.data))) }

/-- The secret `secret` followed by one zero character. -/
def secretZero : String := "secret".push (Char.ofNat 0)

theorem firstByID_some {α : Type} (key : α → Nat) (p : α → Bool) :
    ∀ (l : List α) (r : α), firstByID key p l = some r → r ∈ l ∧ p r = true := by
  intro l
  induction l with
  | nil => intro r h; simp [firstByID] at h
  | cons x xs ih =>
    intro r h
    unfold firstByID at h
    cases hrec : firstByID key p xs with
    | none =>
      rw [hrec] at h
      by_cases hp : p x = true
      · simp [hp] at h
        subst h
        exact ⟨List.mem_cons_self _ _, hp⟩
      · simp [hp] at h
    | some s =>
      rw [hrec] at h
      have hs := ih s hrec
      by_cases hc : (p x && decide (key x ≤ key s)) = true
      · simp only [hc, if_true, Option.some.injEq] at h
        subst h
        simp only [Bool.and_eq_true] at hc
        exact ⟨List.mem_cons_self _ _, hc.1⟩
      · simp only [hc, Bool.false_eq_true, if_false, Option.some.injEq] at h
        subst h
        exact ⟨List.mem_cons_of_mem _ hs.1, hs.2⟩

theorem firstByID_eq_none {α : Type} (key : α → Nat) (p : α → Bool) :
    ∀ (l : List α), firstByID key p l = none ↔ ∀ x ∈ l, p x = false := by
  intro l
  induction l with
  | nil => simp [firstByID]
  | cons x xs ih =>
    unfold firstByID
    cases hrec : firstByID key p xs with
    | none =>
      have hxs := ih.mp hrec
      by_cases hp : p x = true
      · simp [hp]
      · simp only [Bool.not_eq_true] at hp
        simpa [hp] using hxs
    | some s =>
      have hs := firstByID_some key p xs s hrec
      constructor
      · intro h
        by_cases hc : (p x && decide (key x ≤ key s)) = true <;> simp [hc] at h
      · intro h
        have := h s (List.mem_cons_of_mem _ hs.1)
        rw [hs.2] at this
        exact absurd this (by decide)

theorem firstRefreshTokenWhereToken_ok (db : DB) (fault : Option String) (token : String)
    (r : RefreshToken) (h : db.firstRefreshTokenWhereToken fault token = .ok r) :
    fault = none ∧ r ∈ db.refresh_tokens ∧ r.live = true ∧ r.Token = token := by
  unfold DB.firstRefreshTokenWhereToken at h
  cases fault with
  | some d => simp at h
  | none =>
    simp only at h
    cases hq : firstByID RefreshToken.ID (fun r => r.live && r.Token == token)
        db.refresh_tokens with
    | none => rw [hq] at h; simp at h
    | some s =>
      rw [hq] at h
      simp only [Except.ok.injEq] at h
      subst h
      have hs := firstByID_some _ _ _ _ hq
      simp only [Bool.and_eq_true, beq_iff_eq] at hs
      exact ⟨rfl, hs.1, hs.2.1, hs.2.2⟩

theorem firstRefreshTokenWhereToken_error (db : DB) (fault : Option String) (token : String)
    (h : ∀ r ∈ db.refresh_tokens, r.live = true → r.Token ≠ token) :
    ∃ e, db.firstRefreshTokenWhereToken fault token = .error e := by
  cases hq : db.firstRefreshTokenWhereToken fault token with
  | error e => exact ⟨e, rfl⟩
  | ok r =>
    have hr := firstRefreshTokenWhereToken_ok db fault token r hq
    exact absurd hr.2.2.2 (h r hr.2.1 hr.2.2.1)

theorem firstUserByID_ok (db : DB) (fault : Option String) (id : Int) (u : User)
    (h : db.firstUserByID fault id = .ok u) :
    fault = none ∧ u ∈ db.users ∧ u.live = true ∧ (u.ID : Int) = id := by
  unfold DB.firstUserByID at h
  cases fault with
  | some d => simp at h
  | none =>
    simp only at h
    cases hq : firstByID User.ID (fun u => u.live && decide ((u.ID : Int) = id)) db.users with
    | none => rw [hq] at h; simp at h
    | some s =>
      rw [hq] at h
      simp only [Except.ok.injEq] at h
      subst h
      have hs := firstByID_some _ _ _ _ hq
      simp only [Bool.and_eq_true, decide_eq_true_eq] at hs
      exact ⟨rfl, hs.1, hs.2.1, hs.2.2⟩

theorem firstUserWhereEmail_ok (db : DB) (fault : Option String) (email : String) (u : User)
    (h : db.firstUserWhereEmail fault email = .ok u) :
    fault = none ∧ u ∈ db.users ∧ u.live = true ∧ u.Email = email := by
  unfold DB.firstUserWhereEmail at h
  cases fault with
  | some d => simp at h
  | none =>
    simp only at h
    cases hq : firstByID User.ID (fun u => u.live && u.Email == email) db.users with
    | none => rw [hq] at h; simp at h
    | some s =>
      rw [hq] at h
      simp only [Except.ok.injEq] at h
      subst h
      have hs := firstByID_some _ _ _ _ hq
      simp only [Bool.and_eq_true, beq_iff_eq] at hs
      exact ⟨rfl, hs.1, hs.2.1, hs.2.2⟩

theorem firstUserWhereEmail_found (db : DB) (email : String) (u : User)
    (hu : u ∈ db.users) (hl : u.live = true) (he : u.Email = email) :
    ∃ v, db.firstUserWhereEmail none email = .ok v := by
  unfold DB.firstUserWhereEmail
  simp only
  cases hq : firstByID User.ID (fun u => u.live && u.Email == email) db.users with
  | some s => exact ⟨s, rfl⟩
  | none =>
    have := (firstByID_eq_none _ _ _).mp hq u hu
    simp [hl, he] at this

theorem WF_token_pos (db : DB) (hwf : db.WF) (r : RefreshToken) (hr : r ∈ db.refresh_tokens) :
    r.ID ≠ 0 := by
  have h := (hwf.2.2 r.ID (List.mem_map_of_mem _ hr)).1
  omega

theorem deleteRefreshToken_exec (db : DB) (now : Time) (m : RefreshToken) (hm : m.ID ≠ 0) :
    db.deleteRefreshToken none now m =
      (none, { db with refresh_tokens := db.refresh_tokens.map (softDeleteByID now m.ID) }) := by
  unfold DB.deleteRefreshToken
  simp [hm]

theorem softDeleteByID_ID (now : Time) (id : Nat) (r : RefreshToken) :
    (softDeleteByID now id r).ID = r.ID := by
  unfold softDeleteByID
  split <;> rfl

theorem softDeleteByID_Token (now : Time) (id : Nat) (r : RefreshToken) :
    (softDeleteByID now id r).Token = r.Token := by
  unfold softDeleteByID
  split <;> rfl

theorem softDeleteByID_UserID (now : Time) (id : Nat) (r : RefreshToken) :
    (softDeleteByID now id r).UserID = r.UserID := by
  unfold softDeleteByID
  split <;> rfl

theorem softDeleteByID_live (now : Time) (id : Nat) (r : RefreshToken) :
    (softDeleteByID now id r).live = (r.live && decide (r.ID ≠ id)) := by
  unfold softDeleteByID RefreshToken.live
  cases hd : r.DeletedAt <;> by_cases h1 : r.ID = id <;> simp [hd, h1]

/-! ## Expired refresh tokens -/

/-- C3. When the record that the lookup finds for the presented token has an expiry
before the clock reading, and the store executes the delete, `RefreshTokens` fails with
"refresh token expired" (which is not the not-found error), the found record is no
longer live afterwards, and the table holds the same rows as before except for that
soft delete: no row is added, the sequence and the users are untouched. -/
theorem refresh_expired (jwtConfig : JWTConfig) (env : RefreshEnv) (db : DB)
    (refreshToken : String) (tokenModel : RefreshToken)
    (hwf : db.WF)
    (hfind : db.firstRefreshTokenWhereToken env.findTokenFault refreshToken = .ok tokenModel)
    (hexp : tokenModel.ExpiresAt < env.now)
    (hdel : env.deleteFault = none) :
    (AuthService.RefreshTokens jwtConfig env db refreshToken).1
        = .error (.msg "refresh token expired") ∧
    (AuthService.RefreshTokens jwtConfig env db refreshToken).1
        ≠ .error (.msg "invalid refresh token") ∧
    (∀ r ∈ (AuthService.RefreshTokens jwtConfig env db refreshToken).2.refresh_tokens,
        r.ID = tokenModel.ID → r.live = false) ∧
    (AuthService.RefreshTokens jwtConfig env db refreshToken).2 =
      { db with refresh_tokens :=
          db.refresh_tokens.map (softDeleteByID env.deletedAt tokenModel.ID) } ∧
    (AuthService.RefreshTokens jwtConfig env db refreshToken).2.refresh_tokens.length
        = db.refresh_tokens.length := by
  have hmem := (firstRefreshTokenWhereToken_ok db _ _ _ hfind).2.1
  have hid := WF_token_pos db hwf tokenModel hmem
  have hexp2 : tokenModel.IsExpired env.now = true := by
    simp [RefreshToken.IsExpired, hexp]
  have hrun : AuthService.RefreshTokens jwtConfig env db refreshToken =
      (.error (.msg "refresh token expired"),
        { db with refresh_tokens :=
            db.refresh_tokens.map (softDeleteByID env.deletedAt tokenModel.ID) }) := by
    unfold AuthService.RefreshTokens
    rw [hfind]
    simp only [hexp2, if_true, hdel, deleteRefreshToken_exec db env.deletedAt tokenModel hid]
  rw [hrun]
  refine ⟨rfl, by simp, ?_, rfl, by simp⟩
  intro r hr hrid
  simp only [List.mem_map] at hr
  obtain ⟨r0, _, rfl⟩ := hr
  rw [softDeleteByID_live]
  rw [softDeleteByID_ID] at hrid
  simp [hrid]

/-- C3 at a concrete input: the token of `dbOne` expires at 1000 and is presented at
instant 2000. -/
theorem refresh_expired_witness :
    (AuthService.RefreshTokens sampleConfig (sampleRefresh 2000 bytesFF) dbOne token00).1
        = .error (.msg "refresh token expired") ∧
    (AuthService.RefreshTokens sampleConfig (sampleRefresh 2000 bytesFF) dbOne token00).2
        = { dbOne with refresh_tokens :=
              [{ ID := 1, UserID := 1, Token := token00, ExpiresAt := 1000,
                 CreatedAt := 0, DeletedAt := some 2000 }] } :=
  have h := refresh_expired sampleConfig (sampleRefresh 2000 bytesFF) dbOne token00
    { ID := 1, UserID := 1, Token := token00, ExpiresAt := 1000, CreatedAt := 0,
      DeletedAt := none }
    (by decide) (by decide) (by decide) rfl
  ⟨h.1, by rw [h.2.2.2.1]; decide⟩

/-! ## Shape of a successful issue and of a successful refresh -/

theorem countP_le_one_unique {α : Type} (p : α → Bool) :
    ∀ (l : List α), l.countP p ≤ 1 → ∀ a ∈ l, ∀ b ∈ l, p a = true → p b = true → a = b := by
  intro l
  induction l with
  | nil => intro _ a ha; simp at ha
  | cons x xs ih =>
    intro hc a ha b hb hpa hpb
    rw [List.countP_cons] at hc
    have hpos : ∀ c ∈ xs, p c = true → 0 < xs.countP p := fun c hc1 hc2 =>
      List.countP_pos_iff.mpr ⟨c, hc1, hc2⟩
    rcases List.mem_cons.mp ha with rfl | ha1 <;> rcases List.mem_cons.mp hb with rfl | hb1
    · rfl
    · have := hpos b hb1 hpb
      simp only [hpa, if_true] at hc
      omega
    · have := hpos a ha1 hpa
      simp only [hpb, if_true] at hc
      omega
    · exact ih (by omega) a ha1 b hb1 hpa hpb

theorem generateTokens_ok (jwtConfig : JWTConfig) (env : IssueEnv) (db : DB) (user : User)
    (resp : TokenResponse)
    (h : (AuthService.GenerateTokens jwtConfig env db user).1 = .ok resp) :
    ∃ accessToken bytes,
      env.GenerateToken user.ID user.Email user.Role jwtConfig.Secret
        jwtConfig.AccessTokenDuration = .ok accessToken ∧
      env.randRead = .ok bytes ∧
      env.createFault = none ∧
      AuthService.GenerateTokens jwtConfig env db user =
        (.ok { AccessToken := accessToken, RefreshToken := EncodeToString bytes.val,
               TokenType := "Bearer",
               ExpiresIn := env.intSeconds jwtConfig.AccessTokenDuration },
         { db with
           refresh_tokens := db.refresh_tokens ++
             [{ ID := db.refresh_tokens_seq + 1, UserID := user.ID,
                Token := EncodeToString bytes.val,
                ExpiresAt := env.now + jwtConfig.RefreshTokenDuration,
                CreatedAt := env.createdAt, DeletedAt := none }],
           refresh_tokens_seq := db.refresh_tokens_seq + 1 }) := by
  unfold AuthService.GenerateTokens at h ⊢
  cases hacc : env.GenerateToken user.ID user.Email user.Role jwtConfig.Secret
      jwtConfig.AccessTokenDuration with
  | error e => rw [hacc] at h; simp at h
  | ok accessToken =>
    cases hread : env.randRead with
    | error e => rw [hacc, hread] at h; simp [GenerateRefreshToken] at h
    | ok bytes =>
      cases hcf : env.createFault with
      | some d =>
        rw [hacc, hread, hcf] at h
        simp [GenerateRefreshToken, DB.createRefreshToken] at h
      | none =>
        refine ⟨accessToken, bytes, rfl, rfl, rfl, ?_⟩
        simp [GenerateRefreshToken, DB.createRefreshToken]

theorem refreshTokens_ok (jwtConfig : JWTConfig) (env : RefreshEnv) (db : DB)
    (refreshToken : String) (resp : TokenResponse)
    (h : (AuthService.RefreshTokens jwtConfig env db refreshToken).1 = .ok resp) :
    ∃ tokenModel user,
      db.firstRefreshTokenWhereToken env.findTokenFault refreshToken = .ok tokenModel ∧
      ¬ tokenModel.ExpiresAt < env.now ∧
      db.firstUserByID env.findUserFault (tokenModel.UserID : Int) = .ok user ∧
      AuthService.RefreshTokens jwtConfig env db refreshToken =
        AuthService.GenerateTokens jwtConfig env.issue
          (db.deleteRefreshToken env.deleteFault env.deletedAt tokenModel).2 user := by
  unfold AuthService.RefreshTokens at h ⊢
  cases hfind : db.firstRefreshTokenWhereToken env.findTokenFault refreshToken with
  | error e => rw [hfind] at h; simp at h
  | ok tokenModel =>
    rw [hfind] at h
    simp only at h ⊢
    by_cases hexp : tokenModel.IsExpired env.now = true
    · simp [hexp] at h
    · simp only [hexp, Bool.false_eq_true, if_false] at h ⊢
      cases hu : db.firstUserByID env.findUserFault (tokenModel.UserID : Int) with
      | error e => rw [hu] at h; simp at h
      | ok user =>
        refine ⟨tokenModel, user, rfl, ?_, hu, ?_⟩
        · simpa [RefreshToken.IsExpired] using hexp
        · rfl

theorem refreshTokens_not_found (jwtConfig : JWTConfig) (env : RefreshEnv) (db : DB)
    (refreshToken : String)
    (h : ∀ r ∈ db.refresh_tokens, r.live = true → r.Token ≠ refreshToken) :
    AuthService.RefreshTokens jwtConfig env db refreshToken
      = (.error (.msg "invalid refresh token"), db) := by
  obtain ⟨e, he⟩ := firstRefreshTokenWhereToken_error db env.findTokenFault refreshToken h
  unfold AuthService.RefreshTokens
  rw [he]

/-! ## Rotation -/

/-- C1, as stated, fails. First scenario: on the well-formed one-token store `dbOne`,
with every statement executed, the random source yields the bytes that encode to the
presented token again; the refresh succeeds, hands back the very token that was
presented, and presenting it once more succeeds as well. Second scenario: on `dbTwin`,
where two live rows carry the presented value, the refresh returns a different token, yet
presenting the old one again still succeeds. -/
theorem refresh_rotation_counterexample :
    ((AuthService.RefreshTokens sampleConfig (sampleRefresh 10 bytes00) dbOne token00).1
        = .ok { AccessToken := "jwt-for-alice@example.com", RefreshToken := token00,
                TokenType := "Bearer", ExpiresIn := 900 } ∧
     (AuthService.RefreshTokens sampleConfig (sampleRefresh 20 bytesFF)
        (AuthService.RefreshTokens sampleConfig (sampleRefresh 10 bytes00) dbOne token00).2
        token00).1
        = .ok { AccessToken := "jwt-for-alice@example.com", RefreshToken := tokenFF,
                TokenType := "Bearer", ExpiresIn := 900 }) ∧
    ((AuthService.RefreshTokens sampleConfig (sampleRefresh 10 bytesFF) dbTwin token00).1
        = .ok { AccessToken := "jwt-for-alice@example.com", RefreshToken := tokenFF,
                TokenType := "Bearer", ExpiresIn := 900 } ∧
     (AuthService.RefreshTokens sampleConfig (sampleRefresh 20 bytesFF)
        (AuthService.RefreshTokens sampleConfig (sampleRefresh 10 bytesFF) dbTwin token00).2
        token00).1
        = .ok { AccessToken := "jwt-for-alice@example.com", RefreshToken := tokenFF,
                TokenType := "Bearer", ExpiresIn := 900 }) := by
  decide

/-- C1, amended. Let `RefreshTokens r1` succeed on a well-formed store with the delete of
the consumed row executed. The refresh token it returns is the hex encoding of the bytes
drawn from the random source. If that encoding differs from `r1` and at most one live
row carried `r1`, then the returned token differs from `r1` and any later
`RefreshTokens r1` on the resulting store fails with "invalid refresh token", leaving
the store as it is. -/
theorem refresh_rotation (jwtConfig : JWTConfig) (env env2 : RefreshEnv) (db : DB)
    (r1 : String) (resp : TokenResponse)
    (hwf : db.WF)
    (hok : (AuthService.RefreshTokens jwtConfig env db r1).1 = .ok resp)
    (hdel : env.deleteFault = none)
    (hone : db.refresh_tokens.countP (fun r => r.live && r.Token == r1) ≤ 1)
    (hfresh : GenerateRefreshToken env.issue.randRead ≠ .ok r1) :
    GenerateRefreshToken env.issue.randRead = .ok resp.RefreshToken ∧
    resp.RefreshToken ≠ r1 ∧
    AuthService.RefreshTokens jwtConfig env2
        (AuthService.RefreshTokens jwtConfig env db r1).2 r1
      = (.error (.msg "invalid refresh token"),
         (AuthService.RefreshTokens jwtConfig env db r1).2) := by
  obtain ⟨old, user, hfind, _, _, hrun⟩ := refreshTokens_ok jwtConfig env db r1 resp hok
  obtain ⟨_, hmem, hlive, htok⟩ := firstRefreshTokenWhereToken_ok db _ _ _ hfind
  have hid := WF_token_pos db hwf old hmem
  rw [hrun] at hok
  obtain ⟨accessToken, bytes, _, hread, _, hgen⟩ :=
    generateTokens_ok jwtConfig env.issue _ user resp hok
  have hresp : resp.RefreshToken = EncodeToString bytes.val := by
    rw [hgen] at hok
    simp only [Except.ok.injEq] at hok
    rw [← hok]
  have hfresh2 : EncodeToString bytes.val ≠ r1 := by
    intro hEq
    apply hfresh
    rw [hread]
    simp [GenerateRefreshToken, hEq]
  refine ⟨by rw [hread, hresp]; rfl, by rw [hresp]; exact hfresh2, ?_⟩
  apply refreshTokens_not_found
  rw [hrun, hgen, hdel, deleteRefreshToken_exec db env.deletedAt old hid]
  intro r hr hrlive
  simp only [List.mem_append, List.mem_map, List.mem_singleton] at hr
  rcases hr with ⟨r0, hr0, rfl⟩ | rfl
  · rw [softDeleteByID_live] at hrlive
    rw [softDeleteByID_Token]
    simp only [Bool.and_eq_true, decide_eq_true_eq] at hrlive
    intro hr0tok
    have : r0 = old := countP_le_one_unique _ _ hone r0 hr0 old hmem
      (by simp [hrlive.1, hr0tok]) (by simp [hlive, htok])
    exact hrlive.2 (by rw [this])
  · exact hfresh2

/-- C1, amended, at a concrete input: `dbOne`, the random source yielding `bytesFF`. -/
theorem refresh_rotation_witness :
    tokenFF ≠ token00 ∧
    AuthService.RefreshTokens sampleConfig (sampleRefresh 20 bytes00)
        (AuthService.RefreshTokens sampleConfig (sampleRefresh 10 bytesFF) dbOne token00).2
        token00
      = (.error (.msg "invalid refresh token"),
         (AuthService.RefreshTokens sampleConfig (sampleRefresh 10 bytesFF) dbOne
            token00).2) :=
  have h := refresh_rotation sampleConfig (sampleRefresh 10 bytesFF)
    (sampleRefresh 20 bytes00) dbOne token00
    { AccessToken := "jwt-for-alice@example.com", RefreshToken := tokenFF,
      TokenType := "Bearer", ExpiresIn := 900 }
    (by decide) (by decide) rfl (by decide) (by decide)
  ⟨h.2.1, h.2.2⟩

/-! ## Consumption when the owner is gone -/

theorem refreshTokens_user_missing (jwtConfig : JWTConfig) (env : RefreshEnv) (db : DB)
    (refreshToken : String) (tokenModel : RefreshToken) (e : Err)
    (hfind : db.firstRefreshTokenWhereToken env.findTokenFault refreshToken = .ok tokenModel)
    (hexp : ¬ tokenModel.ExpiresAt < env.now)
    (huser : db.firstUserByID env.findUserFault (tokenModel.UserID : Int) = .error e) :
    AuthService.RefreshTokens jwtConfig env db refreshToken
      = (.error (.msg "user not found"), db) := by
  unfold AuthService.RefreshTokens
  rw [hfind]
  simp only [RefreshToken.IsExpired, hexp, decide_False, Bool.false_eq_true, if_false]
  rw [huser]

/-- C2 at its failing input. On `dbOrphan` (the owner of the live, unexpired token was
deleted) with every statement executed, `RefreshTokens` finds the record, fails with
"user not found" and returns the store unchanged, the found row still live; presenting
the token again gives "user not found" again, not "invalid refresh token". -/
theorem refresh_orphan_keeps_token :
    AuthService.RefreshTokens sampleConfig (sampleRefresh 10 bytesFF) dbOrphan token00
      = (.error (.msg "user not found"), dbOrphan) ∧
    dbOrphan.firstRefreshTokenWhereToken none token00
      = .ok { ID := 1, UserID := 1, Token := token00, ExpiresAt := 1000, CreatedAt := 0,
              DeletedAt := none } ∧
    (AuthService.RefreshTokens sampleConfig (sampleRefresh 20 bytesFF)
        (AuthService.RefreshTokens sampleConfig (sampleRefresh 10 bytesFF) dbOrphan
          token00).2 token00).1
      = .error (.msg "user not found") := by
  decide

/-! ## Revocation -/

theorem softDeleteByUser_live (now : Time) (a : Nat) (r : RefreshToken) :
    (softDeleteByUser now a r).live = (r.live && decide (r.UserID ≠ a)) := by
  unfold softDeleteByUser RefreshToken.live
  cases hd : r.DeletedAt <;> by_cases h1 : r.UserID = a <;> simp [hd, h1]

theorem softDeleteByUser_UserID (now : Time) (a : Nat) (r : RefreshToken) :
    (softDeleteByUser now a r).UserID = r.UserID := by
  unfold softDeleteByUser
  split <;> rfl

theorem softDeleteByUser_Token (now : Time) (a : Nat) (r : RefreshToken) :
    (softDeleteByUser now a r).Token = r.Token := by
  unfold softDeleteByUser
  split <;> rfl

theorem softDeleteByUser_ID (now : Time) (a : Nat) (r : RefreshToken) :
    (softDeleteByUser now a r).ID = r.ID := by
  unfold softDeleteByUser
  split <;> rfl

theorem softDeleteByUser_other (now : Time) (a : Nat) (r : RefreshToken)
    (h : r.UserID ≠ a ∨ r.live = false) : softDeleteByUser now a r = r := by
  unfold softDeleteByUser
  rcases h with h | h <;> simp [h]

theorem revokeAll_ok (fault : Option String) (now : Time) (db : DB) (a : Nat)
    (h : (AuthService.RevokeAllRefreshTokens fault now db a).1 = none) :
    fault = none ∧
    AuthService.RevokeAllRefreshTokens fault now db a =
      (none, { db with refresh_tokens := db.refresh_tokens.map (softDeleteByUser now a) }) := by
  unfold AuthService.RevokeAllRefreshTokens DB.deleteRefreshTokensWhereUserID at h ⊢
  cases fault with
  | some d => simp at h
  | none => exact ⟨rfl, rfl⟩

/-- C4, as stated, fails. On `dbShared` the value `token00` was issued to account 1 and
is also carried by a live row of account 2. Revoking all tokens of account 1 succeeds,
and `RefreshTokens token00` on the resulting store then succeeds, minting tokens for
account 2. -/
theorem revoke_then_refresh_counterexample :
    (AuthService.RevokeAllRefreshTokens none 5 dbShared 1).1 = none ∧
    (AuthService.RefreshTokens sampleConfig (sampleRefresh 10 bytesFF)
        (AuthService.RevokeAllRefreshTokens none 5 dbShared 1).2 token00).1
      = .ok { AccessToken := "jwt-for-bob@example.com", RefreshToken := tokenFF,
              TokenType := "Bearer", ExpiresIn := 900 } := by
  decide

/-- C4, amended. After `RevokeAllRefreshTokens a` succeeds (which is when `Logout`
answers 200), no row owned by `a` is live, and `RefreshTokens` called with any token
value whose live rows were all owned by `a` fails with "invalid refresh token". -/
theorem revoke_then_refresh (jwtConfig : JWTConfig) (env : RefreshEnv)
    (fault : Option String) (now : Time) (db : DB) (a : Nat) (tok : String)
    (hrev : (AuthService.RevokeAllRefreshTokens fault now db a).1 = none)
    (hown : ∀ r ∈ db.refresh_tokens, r.live = true → r.Token = tok → r.UserID = a) :
    AuthHandler.Logout fault now db a =
      (responses.Success 200 "Logged out successfully" none,
       (AuthService.RevokeAllRefreshTokens fault now db a).2) ∧
    (∀ r ∈ (AuthService.RevokeAllRefreshTokens fault now db a).2.refresh_tokens,
        r.UserID = a → r.live = false) ∧
    AuthService.RefreshTokens jwtConfig env
        (AuthService.RevokeAllRefreshTokens fault now db a).2 tok
      = (.error (.msg "invalid refresh token"),
         (AuthService.RevokeAllRefreshTokens fault now db a).2) := by
  obtain ⟨_, hrun⟩ := revokeAll_ok fault now db a hrev
  refine ⟨?_, ?_, ?_⟩
  · unfold AuthHandler.Logout
    rw [hrun]
  · rw [hrun]
    intro r hr hra
    simp only [List.mem_map] at hr
    obtain ⟨r0, _, rfl⟩ := hr
    rw [softDeleteByUser_UserID] at hra
    rw [softDeleteByUser_live]
    simp [hra]
  · apply refreshTokens_not_found
    rw [hrun]
    intro r hr hrlive
    simp only [List.mem_map] at hr
    obtain ⟨r0, hr0, rfl⟩ := hr
    rw [softDeleteByUser_live] at hrlive
    rw [softDeleteByUser_Token]
    simp only [Bool.and_eq_true, decide_eq_true_eq] at hrlive
    intro htok
    exact hrlive.2 (hown r0 hr0 hrlive.1 htok)

/-- C4, amended, at a concrete input: `dbOne`, account 1 and its token. -/
theorem revoke_then_refresh_witness :
    AuthHandler.Logout none 5 dbOne 1 =
      (responses.Success 200 "Logged out successfully" none,
       (AuthService.RevokeAllRefreshTokens none 5 dbOne 1).2) ∧
    AuthService.RefreshTokens sampleConfig (sampleRefresh 10 bytesFF)
        (AuthService.RevokeAllRefreshTokens none 5 dbOne 1).2 token00
      = (.error (.msg "invalid refresh token"),
         (AuthService.RevokeAllRefreshTokens none 5 dbOne 1).2) :=
  have h := revoke_then_refresh sampleConfig (sampleRefresh 10 bytesFF) none 5 dbOne 1
    token00 (by decide) (by decide)
  ⟨h.1, h.2.2⟩

/-! ## Login -/

/-- C5. For every store, email, password and outcome of the lookup statement:
`Authenticate` returns an account exactly when the lookup by email finds it, the password
verifies against its stored hash and it is active; it fails with "account is inactive"
exactly when the lookup finds an account whose password verifies and which is not
active; in every other case (the lookup finds nothing, or the password does not verify,
whether the account is active or not) it fails with "invalid credentials". When the
statement is executed, the lookup finds an account exactly when the table holds a live
row with that email. -/
theorem authenticate_outcome (bcrypt : Bcrypt) (fault : Option String) (db : DB)
    (email password : String) :
    (∀ u, AuthService.Authenticate bcrypt fault db email password = .ok u ↔
      (db.firstUserWhereEmail fault email = .ok u ∧
        u.CheckPassword bcrypt password = true ∧ u.IsActive = true)) ∧
    (AuthService.Authenticate bcrypt fault db email password
        = .error (.msg "account is inactive") ↔
      ∃ u, db.firstUserWhereEmail fault email = .ok u ∧
        u.CheckPassword bcrypt password = true ∧ u.IsActive = false) ∧
    (((∀ u, db.firstUserWhereEmail fault email ≠ .ok u) ∨
      (∃ u, db.firstUserWhereEmail fault email = .ok u ∧
        u.CheckPassword bcrypt password = false)) →
      AuthService.Authenticate bcrypt fault db email password
        = .error (.msg "invalid credentials")) ∧
    ((∃ u, db.firstUserWhereEmail none email = .ok u) ↔
      ∃ u ∈ db.users, u.live = true ∧ u.Email = email) := by
  refine ⟨?_, ?_, ?_, ?_⟩
  · intro u
    unfold AuthService.Authenticate
    cases hq : db.firstUserWhereEmail fault email with
    | error e => simp
    | ok v =>
      cases hc : v.CheckPassword bcrypt password <;> cases ha : v.IsActive <;>
        simp [hc, ha]
      · intro h; subst h; simp [hc]
      · intro h; subst h; simp [hc]
      · intro h; subst h; simp [ha]
      · intro h; subst h; exact ⟨hc, ha⟩
  · unfold AuthService.Authenticate
    cases hq : db.firstUserWhereEmail fault email with
    | error e => simp
    | ok v =>
      cases hc : v.CheckPassword bcrypt password <;> cases ha : v.IsActive <;>
        simp [hc, ha]
  · intro h
    unfold AuthService.Authenticate
    cases hq : db.firstUserWhereEmail fault email with
    | error e => rfl
    | ok v =>
      rcases h with h | ⟨u, hu, hcu⟩
      · exact absurd hq (h v)
      · rw [hq] at hu
        simp only [Except.ok.injEq] at hu
        subst hu
        simp [hcu]
  · constructor
    · rintro ⟨u, hu⟩
      obtain ⟨_, h1, h2, h3⟩ := firstUserWhereEmail_ok db none email u hu
      exact ⟨u, h1, h2, h3⟩
    · rintro ⟨u, h1, h2, h3⟩
      exact firstUserWhereEmail_found db email u h1 h2 h3

/-- C5 at concrete inputs on the store `dbOne`: the right password logs in, a wrong
password and an unknown email both give "invalid credentials". -/
theorem authenticate_outcome_witness :
    AuthService.Authenticate sampleBcrypt none dbOne "alice@example.com" "correcthorse1"
      = .ok alice ∧
    AuthService.Authenticate sampleBcrypt none dbOne "alice@example.com" "wrong"
      = .error (.msg "invalid credentials") ∧
    AuthService.Authenticate sampleBcrypt none dbOne "carol@example.com" "correcthorse1"
      = .error (.msg "invalid credentials") :=
  have h := authenticate_outcome sampleBcrypt none dbOne "alice@example.com" "wrong"
  ⟨by decide, h.2.2.1 (Or.inr ⟨alice, by decide, by decide⟩), by decide⟩

/-! ## Password change -/

/-- C6. When the request binds and validates, the lookup finds the account and the
supplied old password does not verify against its stored hash, `ChangePassword` answers
400 "Invalid old password" (not a success) and returns the store exactly as it was: no
password hash and no refresh-token row of any account is changed. -/
theorem change_password_wrong_old (bcrypt : Bcrypt) (env : ChangePasswordEnv) (db : DB)
    (req : ChangePasswordRequest) (user : User)
    (hbind : env.Bind = .ok req)
    (hval : env.Validate req = none)
    (hget : UserService.GetByID env.findFault db (uintToInt env.user_id) = .ok user)
    (hbad : user.CheckPassword bcrypt req.OldPassword = false) :
    AuthHandler.ChangePassword bcrypt env db
      = ({ Status := 400, Success := false, Message := "Invalid old password",
           Data := none, Errors := none }, db) ∧
    (AuthHandler.ChangePassword bcrypt env db).2.users = db.users ∧
    (AuthHandler.ChangePassword bcrypt env db).2.refresh_tokens = db.refresh_tokens := by
  have hrun : AuthHandler.ChangePassword bcrypt env db
      = ({ Status := 400, Success := false, Message := "Invalid old password",
           Data := none, Errors := none }, db) := by
    unfold AuthHandler.ChangePassword
    rw [hbind]
    simp only [hval, hget, hbad]
    rfl
  rw [hrun]
  exact ⟨rfl, rfl, rfl⟩

/-- C6 at a concrete input: account 1 of `dbOne` supplies a wrong old password. -/
theorem change_password_wrong_old_witness :
    AuthHandler.ChangePassword sampleBcrypt (sampleChangePassword "wrong" "newpassword1" none)
        dbOne
      = ({ Status := 400, Success := false, Message := "Invalid old password",
           Data := none, Errors := none }, dbOne) :=
  (change_password_wrong_old sampleBcrypt (sampleChangePassword "wrong" "newpassword1" none)
    dbOne { OldPassword := "wrong", NewPassword := "newpassword1" } alice
    rfl rfl (by decide) (by decide)).1

/-- C7 at its failing input. Account 1 of `dbOne` changes its password with the right old
password while the store reports a failure for the revocation statement. The handler
answers 200 "Password changed successfully", the new hash is stored, and the account's
refresh-token row is still live: `RefreshTokens` with it succeeds afterwards. `Logout`,
given the same failure of the same statement, answers 500. -/
theorem change_password_drops_revoke_error :
    AuthHandler.ChangePassword sampleBcrypt
        (sampleChangePassword "correcthorse1" "newpassword1" (some "connection reset")) dbOne
      = ({ Status := 200, Success := true, Message := "Password changed successfully",
           Data := none, Errors := none },
         { dbOne with
           users := [{ alice with Password := "bcrypt:newpassword1", UpdatedAt := 50 }] }) ∧
    (AuthService.RefreshTokens sampleConfig (sampleRefresh 60 bytesFF)
        (AuthHandler.ChangePassword sampleBcrypt
          (sampleChangePassword "correcthorse1" "newpassword1" (some "connection reset"))
          dbOne).2 token00).1
      = .ok { AccessToken := "jwt-for-alice@example.com", RefreshToken := tokenFF,
              TokenType := "Bearer", ExpiresIn := 900 } ∧
    AuthHandler.Logout (some "connection reset") 50 dbOne 1
      = ({ Status := 500, Success := false, Message := "Failed to logout",
           Data := none, Errors := none }, dbOne) := by
  decide

/-- When the revocation statement is executed, a `ChangePassword` that reports success
leaves no live refresh-token row owned by the account. -/
theorem change_password_success_revokes (bcrypt : Bcrypt) (env : ChangePasswordEnv) (db : DB)
    (hrev : env.revokeFault = none)
    (hok : (AuthHandler.ChangePassword bcrypt env db).1.Success = true) :
    ∀ r ∈ (AuthHandler.ChangePassword bcrypt env db).2.refresh_tokens,
      r.UserID = env.user_id → r.live = false := by
  unfold AuthHandler.ChangePassword at hok ⊢
  cases hb : env.Bind with
  | error e => rw [hb] at hok; simp [responses.BadRequest, responses.Error] at hok
  | ok req =>
    rw [hb] at hok
    simp only at hok ⊢
    cases hv : env.Validate req with
    | some errs =>
      rw [hv] at hok; simp [responses.ValidationError, responses.Error] at hok
    | none =>
      rw [hv] at hok
      simp only at hok ⊢
      cases hg : UserService.GetByID env.findFault db (uintToInt env.user_id) with
      | error e => rw [hg] at hok; simp [responses.NotFound, responses.Error] at hok
      | ok user =>
        rw [hg] at hok
        simp only at hok ⊢
        cases hc : user.CheckPassword bcrypt req.OldPassword with
        | false =>
          rw [hc] at hok; simp [responses.BadRequest, responses.Error] at hok
        | true =>
          rw [hc] at hok
          simp only [Bool.not_true, Bool.false_eq_true, if_false] at hok ⊢
          cases hu : UserService.UpdatePassword env.update db env.user_id req.NewPassword with
          | mk err db1 =>
            rw [hu] at hok
            cases err with
            | some e => simp [responses.InternalError, responses.Error] at hok
            | none =>
              simp only [hrev]
              intro r hr hra
              simp only [AuthService.RevokeAllRefreshTokens,
                DB.deleteRefreshTokensWhereUserID, List.mem_map] at hr
              obtain ⟨r0, _, rfl⟩ := hr
              rw [softDeleteByUser_UserID] at hra
              rw [softDeleteByUser_live]
              simp [hra]

/-! ## Issuance -/

theorem softDeleteByID_of_ne (now : Time) (id : Nat) (r : RefreshToken) (h : r.ID ≠ id) :
    softDeleteByID now id r = r := by
  unfold softDeleteByID
  simp [h]

theorem map_softDeleteByID_of_not_mem (now : Time) (id : Nat) :
    ∀ (l : List RefreshToken), id ∉ l.map RefreshToken.ID →
      l.map (softDeleteByID now id) = l := by
  intro l
  induction l with
  | nil => intro _; rfl
  | cons x xs ih =>
    intro h
    simp only [List.map_cons, List.mem_cons, not_or] at h
    rw [List.map_cons, ih h.2, softDeleteByID_of_ne now id x (fun hx => h.1 hx.symm)]

theorem delete_splits (now : Time) (old : RefreshToken) (l : List RefreshToken)
    (hnd : (l.map RefreshToken.ID).Nodup) (hmem : old ∈ l) (hlive : old.live = true) :
    ∃ s t, l = s ++ old :: t ∧
      l.map (softDeleteByID now old.ID) = s ++ { old with DeletedAt := some now } :: t := by
  obtain ⟨s, t, rfl⟩ := List.append_of_mem hmem
  refine ⟨s, t, rfl, ?_⟩
  simp only [List.map_append, List.map_cons] at hnd ⊢
  have h1 := List.nodup_append.mp hnd
  have h2 := List.nodup_cons.mp h1.2.1
  have hs : old.ID ∉ s.map RefreshToken.ID := fun hin =>
    h1.2.2 hin (List.mem_cons_self _ _)
  rw [map_softDeleteByID_of_not_mem now old.ID s hs,
    map_softDeleteByID_of_not_mem now old.ID t h2.1]
  simp [softDeleteByID, hlive]

/-- Frame of a successful refresh whose delete is executed, on a well-formed store:
the consumed row `old` is the one the lookup found, the account is the one looked up by
`old.UserID`, the access token is what `utils.GenerateToken` returns for that account's
id, email and role, and the table becomes the old rows with `old` soft-deleted followed
by one new live row owned by `old.UserID` carrying the returned refresh token. Hence
the number of live rows of that account is unchanged, the rows of every other account
are exactly as before, and the users are untouched. -/
theorem refresh_frame (jwtConfig : JWTConfig) (env : RefreshEnv) (db : DB)
    (refreshToken : String) (resp : TokenResponse)
    (hwf : db.WF)
    (hdel : env.deleteFault = none)
    (hok : (AuthService.RefreshTokens jwtConfig env db refreshToken).1 = .ok resp) :
    ∃ old user new,
      db.firstRefreshTokenWhereToken env.findTokenFault refreshToken = .ok old ∧
      db.firstUserByID env.findUserFault (old.UserID : Int) = .ok user ∧
      user.ID = old.UserID ∧
      env.issue.GenerateToken user.ID user.Email user.Role jwtConfig.Secret
        jwtConfig.AccessTokenDuration = .ok resp.AccessToken ∧
      (AuthService.RefreshTokens jwtConfig env db refreshToken).2.refresh_tokens
        = db.refresh_tokens.map (softDeleteByID env.deletedAt old.ID) ++ [new] ∧
      new.UserID = old.UserID ∧ new.Token = resp.RefreshToken ∧ new.live = true ∧
      (AuthService.RefreshTokens jwtConfig env db refreshToken).2.users = db.users ∧
      (AuthService.RefreshTokens jwtConfig env db refreshToken).2.refresh_tokens.countP
          (fun r => r.live && r.UserID == old.UserID)
        = db.refresh_tokens.countP (fun r => r.live && r.UserID == old.UserID) ∧
      ∀ b, b ≠ old.UserID →
        (AuthService.RefreshTokens jwtConfig env db refreshToken).2.refresh_tokens.filter
            (fun r => r.UserID == b)
          = db.refresh_tokens.filter (fun r => r.UserID == b) := by
  obtain ⟨old, user, hfind, _, huser, hrun⟩ :=
    refreshTokens_ok jwtConfig env db refreshToken resp hok
  obtain ⟨_, hmem, hlive, _⟩ := firstRefreshTokenWhereToken_ok db _ _ _ hfind
  obtain ⟨_, _, _, huid⟩ := firstUserByID_ok db _ _ _ huser
  have huid2 : user.ID = old.UserID := by exact_mod_cast huid
  have hid := WF_token_pos db hwf old hmem
  rw [hrun] at hok
  obtain ⟨accessToken, bytes, hacc, _, _, hgen⟩ :=
    generateTokens_ok jwtConfig env.issue _ user resp hok
  have hresp : resp = TokenResponse.mk accessToken (EncodeToString bytes.val) "Bearer"
      (env.issue.intSeconds jwtConfig.AccessTokenDuration) := by
    rw [hgen] at hok
    simp only [Except.ok.injEq] at hok
    exact hok.symm
  obtain ⟨s, t, hsplit, hmap⟩ :=
    delete_splits env.deletedAt old db.refresh_tokens hwf.2.1 hmem hlive
  have hlive2 : old.DeletedAt = none := by
    simpa [RefreshToken.live] using hlive
  refine ⟨old, user,
    { ID := db.refresh_tokens_seq + 1, UserID := user.ID, Token := EncodeToString bytes.val,
      ExpiresAt := env.issue.now + jwtConfig.RefreshTokenDuration,
      CreatedAt := env.issue.createdAt, DeletedAt := none },
    hfind, huser, huid2, ?_, ?_, huid2, ?_, rfl, ?_, ?_, ?_⟩
  · rw [hresp]; exact hacc
  · rw [hrun, hgen, hdel, deleteRefreshToken_exec db env.deletedAt old hid]
  · rw [hresp]
  · rw [hrun, hgen, hdel, deleteRefreshToken_exec db env.deletedAt old hid]
  · rw [hrun, hgen, hdel, deleteRefreshToken_exec db env.deletedAt old hid]
    simp only [hmap]
    rw [hsplit]
    simp [List.countP_append, List.countP_cons, RefreshToken.live, huid2, hlive2]
  · intro b hb
    rw [hrun, hgen, hdel, deleteRefreshToken_exec db env.deletedAt old hid]
    simp only [hmap]
    rw [hsplit]
    have hb2 : ¬ old.UserID = b := fun h => hb h.symm
    simp [List.filter_append, List.filter_cons, huid2, hb2]

/-- The frame at a concrete input: account 1 of `dbPair` refreshes with `token00` at
instant 10, the random source yielding `bytesA5`. -/
theorem refresh_frame_witness :
    ∃ old user new,
      dbPair.firstRefreshTokenWhereToken none token00 = .ok old ∧
      dbPair.firstUserByID none (old.UserID : Int) = .ok user ∧
      user.ID = old.UserID ∧
      (AuthService.RefreshTokens sampleConfig (sampleRefresh 10 bytesA5) dbPair
          token00).2.refresh_tokens
        = dbPair.refresh_tokens.map (softDeleteByID 10 old.ID) ++ [new] ∧
      new.UserID = old.UserID ∧
      (AuthService.RefreshTokens sampleConfig (sampleRefresh 10 bytesA5) dbPair
          token00).2.refresh_tokens.countP (fun r => r.live && r.UserID == old.UserID)
        = dbPair.refresh_tokens.countP (fun r => r.live && r.UserID == old.UserID) :=
  have ⟨old, user, new, h1, h2, h3, _, h5, h6, _, _, _, h10, _⟩ :=
    refresh_frame sampleConfig (sampleRefresh 10 bytesA5) dbPair token00
      { AccessToken := "jwt-for-alice@example.com", RefreshToken := tokenA5,
        TokenType := "Bearer", ExpiresIn := 900 }
      (by decide) rfl (by decide)
  ⟨old, user, new, h1, h2, h3, h5, h6, h10⟩

/-- C8 at its failing input. Account 1 of `dbOne` refreshes with its token while the
store reports a failure for the delete of the consumed row. The code drops that result,
so `RefreshTokens` succeeds all the same: the consumed row is still live next to the new
one, and the account's live rows go from one to two. -/
theorem refresh_failed_delete_adds_row :
    AuthService.RefreshTokens sampleConfig
        { sampleRefresh 10 bytesFF with deleteFault := some "connection reset" } dbOne token00
      = (.ok { AccessToken := "jwt-for-alice@example.com", RefreshToken := tokenFF,
               TokenType := "Bearer", ExpiresIn := 900 },
         { dbOne with
           refresh_tokens :=
             [{ ID := 1, UserID := 1, Token := token00, ExpiresAt := 1000, CreatedAt := 0,
                DeletedAt := none },
              { ID := 2, UserID := 1, Token := tokenFF, ExpiresAt := 604800000000010,
                CreatedAt := 10, DeletedAt := none }],
           refresh_tokens_seq := 2 }) ∧
    dbOne.refresh_tokens.countP (fun r => r.live && r.UserID == 1) = 1 ∧
    (AuthService.RefreshTokens sampleConfig
        { sampleRefresh 10 bytesFF with deleteFault := some "connection reset" } dbOne
        token00).2.refresh_tokens.countP (fun r => r.live && r.UserID == 1) = 2 := by
  decide

/-! ## revokeAll -/

theorem map_softDeleteByUser_of_none_live (now : Time) (a : Nat) :
    ∀ (l : List RefreshToken), (∀ r ∈ l, r.UserID = a → r.live = false) →
      l.map (softDeleteByUser now a) = l := by
  intro l
  induction l with
  | nil => intro _; rfl
  | cons x xs ih =>
    intro h
    rw [List.map_cons, ih (fun r hr => h r (List.mem_cons_of_mem _ hr))]
    have hx : softDeleteByUser now a x = x := by
      apply softDeleteByUser_other
      by_cases hxa : x.UserID = a
      · exact Or.inr (h x (List.mem_cons_self _ _) hxa)
      · exact Or.inl hxa
    rw [hx]

/-- C10. `RevokeAllRefreshTokens a`, its statement executed, succeeds on every store and
returns the store in which each row is soft-deleted if it was a live row owned by `a`
and is left as it was otherwise: afterwards no row owned by `a` is live, every row of
another account (and every already deleted row) is unchanged, no row is added or
dropped, and the users are untouched. On a store with no live row owned by `a` it
returns the store unchanged; so applying it a second time, at any instant, changes
nothing. -/
theorem revoke_all_spec (now now2 : Time) (db : DB) (a : Nat) :
    (AuthService.RevokeAllRefreshTokens none now db a).1 = none ∧
    (AuthService.RevokeAllRefreshTokens none now db a).2 =
      { db with refresh_tokens := db.refresh_tokens.map (softDeleteByUser now a) } ∧
    (∀ r ∈ (AuthService.RevokeAllRefreshTokens none now db a).2.refresh_tokens,
        r.UserID = a → r.live = false) ∧
    (∀ r, r.UserID ≠ a ∨ r.live = false → softDeleteByUser now a r = r) ∧
    (∀ b, b ≠ a →
      (AuthService.RevokeAllRefreshTokens none now db a).2.refresh_tokens.filter
          (fun r => r.UserID == b)
        = db.refresh_tokens.filter (fun r => r.UserID == b)) ∧
    ((AuthService.RevokeAllRefreshTokens none now db a).2.refresh_tokens.map RefreshToken.ID
        = db.refresh_tokens.map RefreshToken.ID) ∧
    ((∀ r ∈ db.refresh_tokens, r.UserID = a → r.live = false) →
      AuthService.RevokeAllRefreshTokens none now db a = (none, db)) ∧
    AuthService.RevokeAllRefreshTokens none now2
        (AuthService.RevokeAllRefreshTokens none now db a).2 a
      = (none, (AuthService.RevokeAllRefreshTokens none now db a).2) := by
  have hrun : AuthService.RevokeAllRefreshTokens none now db a =
      (none, { db with refresh_tokens := db.refresh_tokens.map (softDeleteByUser now a) }) :=
    rfl
  have hdead : ∀ r ∈ db.refresh_tokens.map (softDeleteByUser now a),
      r.UserID = a → r.live = false := by
    intro r hr hra
    simp only [List.mem_map] at hr
    obtain ⟨r0, _, rfl⟩ := hr
    rw [softDeleteByUser_UserID] at hra
    rw [softDeleteByUser_live]
    simp [hra]
  have hidem : ∀ (t : Time) (d : DB), (∀ r ∈ d.refresh_tokens, r.UserID = a → r.live = false) →
      AuthService.RevokeAllRefreshTokens none t d a = (none, d) := by
    intro t d h
    show (none, { d with refresh_tokens := d.refresh_tokens.map (softDeleteByUser t a) })
      = (none, d)
    rw [map_softDeleteByUser_of_none_live t a d.refresh_tokens h]
  rw [hrun]
  refine ⟨rfl, rfl, hdead, fun r h => softDeleteByUser_other now a r h, ?_, ?_,
    hidem now db, hidem now2 _ hdead⟩
  · intro b hb
    show (db.refresh_tokens.map (softDeleteByUser now a)).filter (fun r => r.UserID == b)
      = db.refresh_tokens.filter (fun r => r.UserID == b)
    induction db.refresh_tokens with
    | nil => rfl
    | cons x xs ih =>
      by_cases hx : x.UserID = b
      · have hxa : x.UserID ≠ a := fun h => hb (hx.symm.trans h)
        rw [List.map_cons, softDeleteByUser_other now a x (Or.inl hxa)]
        simp [List.filter_cons, hx, ih]
      · have hx2 : (softDeleteByUser now a x).UserID ≠ b := by
          rw [softDeleteByUser_UserID]; exact hx
        simp [List.filter_cons, hx, hx2, ih]
  · show (db.refresh_tokens.map (softDeleteByUser now a)).map RefreshToken.ID
      = db.refresh_tokens.map RefreshToken.ID
    rw [List.map_map]
    apply List.map_congr_left
    intro r _
    exact softDeleteByUser_ID now a r

/-- C10 at a concrete input: on `dbPair`, revoking account 1 at instant 5 soft-deletes
its one live row and nothing else; a store without live rows of account 1 is returned
as it is. -/
theorem revoke_all_spec_witness :
    AuthService.RevokeAllRefreshTokens none 5 dbPair 1 =
      (none, { dbPair with refresh_tokens :=
        [{ ID := 1, UserID := 1, Token := tokenA5, ExpiresAt := 900, CreatedAt := 0,
           DeletedAt := some 3 },
         { ID := 2, UserID := 2, Token := tokenFF, ExpiresAt := 1000, CreatedAt := 0,
           DeletedAt := none },
         { ID := 3, UserID := 1, Token := token00, ExpiresAt := 1000, CreatedAt := 3,
           DeletedAt := some 5 }] }) ∧
    AuthService.RevokeAllRefreshTokens none 7 dbPair 9 = (none, dbPair) :=
  ⟨by decide, (revoke_all_spec 7 8 dbPair 9).2.2.2.2.2.2.1 (by decide)⟩

/-! ## The primary-key constraint is kept by every operation -/

theorem firstByID_least {α : Type} (key : α → Nat) (p : α → Bool) :
    ∀ (l : List α) (r : α), firstByID key p l = some r →
      ∀ x ∈ l, p x = true → key r ≤ key x := by
  intro l
  induction l with
  | nil => intro r h; simp [firstByID] at h
  | cons y ys ih =>
    intro r h x hx hpx
    unfold firstByID at h
    cases hrec : firstByID key p ys with
    | none =>
      rw [hrec] at h
      have hnone := (firstByID_eq_none key p ys).mp hrec
      by_cases hp : p y = true
      · simp only [hp, if_true, Option.some.injEq] at h
        subst h
        rcases List.mem_cons.mp hx with rfl | hx1
        · exact le_refl _
        · rw [hnone x hx1] at hpx
          exact absurd hpx (by decide)
      · simp [hp] at h
    | some s =>
      rw [hrec] at h
      have hs := ih s hrec
      by_cases hc : (p y && decide (key y ≤ key s)) = true
      · simp only [hc, if_true, Option.some.injEq] at h
        subst h
        simp only [Bool.and_eq_true, decide_eq_true_eq] at hc
        rcases List.mem_cons.mp hx with rfl | hx1
        · exact le_refl _
        · exact le_trans hc.2 (hs x hx1 hpx)
      · simp only [hc, Bool.false_eq_true, if_false, Option.some.injEq] at h
        subst h
        rcases List.mem_cons.mp hx with rfl | hx1
        · simp only [Bool.and_eq_true, decide_eq_true_eq, not_and, hpx, true_implies] at hc
          omega
        · exact hs x hx1 hpx

theorem keysOK_append_next (ids : List Nat) (seq : Nat) (h : keysOK ids seq) :
    keysOK (ids ++ [seq + 1]) (seq + 1) := by
  obtain ⟨hnd, hb⟩ := h
  refine ⟨?_, ?_⟩
  · rw [List.nodup_append]
    refine ⟨hnd, List.nodup_singleton _, ?_⟩
    intro a ha ha2
    rw [List.mem_singleton] at ha2
    have := (hb a ha).2
    omega
  · intro i hi
    rcases List.mem_append.mp hi with hi1 | hi1
    · have := hb i hi1
      omega
    · rw [List.mem_singleton] at hi1
      omega

theorem createRefreshToken_WF (db : DB) (fault : Option String) (now : Time) (userID : Nat)
    (token : String) (expiresAt : Time) (hwf : db.WF) :
    (db.createRefreshToken fault now userID token expiresAt).2.WF := by
  unfold DB.createRefreshToken
  cases fault with
  | some d => exact hwf
  | none =>
    refine ⟨hwf.1, ?_⟩
    simpa using keysOK_append_next _ _ hwf.2

theorem deleteRefreshToken_WF (db : DB) (fault : Option String) (now : Time)
    (m : RefreshToken) (hwf : db.WF) : (db.deleteRefreshToken fault now m).2.WF := by
  unfold DB.deleteRefreshToken
  cases fault with
  | some d => exact hwf
  | none =>
    by_cases hm : m.ID = 0
    · simpa [hm] using hwf
    · simp only [hm, if_false]
      refine ⟨hwf.1, ?_⟩
      have : (db.refresh_tokens.map (softDeleteByID now m.ID)).map RefreshToken.ID
          = db.refresh_tokens.map RefreshToken.ID := by
        rw [List.map_map]
        exact List.map_congr_left (fun r _ => softDeleteByID_ID now m.ID r)
      show keysOK ((db.refresh_tokens.map (softDeleteByID now m.ID)).map RefreshToken.ID) _
      rw [this]
      exact hwf.2

theorem revokeAll_WF (fault : Option String) (now : Time) (db : DB) (a : Nat) (hwf : db.WF) :
    (AuthService.RevokeAllRefreshTokens fault now db a).2.WF := by
  unfold AuthService.RevokeAllRefreshTokens DB.deleteRefreshTokensWhereUserID
  cases fault with
  | some d => exact hwf
  | none =>
    refine ⟨hwf.1, ?_⟩
    have : (db.refresh_tokens.map (softDeleteByUser now a)).map RefreshToken.ID
        = db.refresh_tokens.map RefreshToken.ID := by
      rw [List.map_map]
      exact List.map_congr_left (fun r _ => softDeleteByUser_ID now a r)
    show keysOK ((db.refresh_tokens.map (softDeleteByUser now a)).map RefreshToken.ID) _
    rw [this]
    exact hwf.2

theorem generateTokens_WF (jwtConfig : JWTConfig) (env : IssueEnv) (db : DB) (user : User)
    (hwf : db.WF) : (AuthService.GenerateTokens jwtConfig env db user).2.WF := by
  unfold AuthService.GenerateTokens
  cases env.GenerateToken user.ID user.Email user.Role jwtConfig.Secret
      jwtConfig.AccessTokenDuration with
  | error e => exact hwf
  | ok accessToken =>
    cases hr : GenerateRefreshToken env.randRead with
    | error e => exact hwf
    | ok refreshToken =>
      have h := createRefreshToken_WF db env.createFault env.createdAt user.ID refreshToken
        (env.now + jwtConfig.RefreshTokenDuration) hwf
      simp only
      cases hc : db.createRefreshToken env.createFault env.createdAt user.ID refreshToken
          (env.now + jwtConfig.RefreshTokenDuration) with
      | mk res db1 =>
        rw [hc] at h
        cases res <;> exact h

theorem refreshTokens_WF (jwtConfig : JWTConfig) (env : RefreshEnv) (db : DB)
    (refreshToken : String) (hwf : db.WF) :
    (AuthService.RefreshTokens jwtConfig env db refreshToken).2.WF := by
  unfold AuthService.RefreshTokens
  cases db.firstRefreshTokenWhereToken env.findTokenFault refreshToken with
  | error e => exact hwf
  | ok tokenModel =>
    simp only
    have hd := deleteRefreshToken_WF db env.deleteFault env.deletedAt tokenModel hwf
    by_cases hexp : tokenModel.IsExpired env.now = true
    · simpa [hexp] using hd
    · simp only [hexp, Bool.false_eq_true, if_false]
      cases db.firstUserByID env.findUserFault (tokenModel.UserID : Int) with
      | error e => exact hwf
      | ok user => exact generateTokens_WF jwtConfig env.issue _ user hd

/-! ## Wire form of the refresh token -/

set_option maxRecDepth 100000 in
theorem hexByte_digits : ∀ v : Fin 256,
    hextable.getD (v.val >>> 4) '0' ∈ hextable ∧
    hextable.getD (v.val &&& 0x0f) '0' ∈ hextable := by
  decide

set_option maxRecDepth 100000 in
theorem unhexByte_hexByte : ∀ v : Fin 256,
    unhexByte (hextable.getD (v.val >>> 4) '0') (hextable.getD (v.val &&& 0x0f) '0')
      = v.val := by
  decide

theorem flatMap_hexByte_length (l : List (Fin 256)) :
    (l.flatMap hexByte).length = 2 * l.length := by
  induction l with
  | nil => rfl
  | cons v vs ih =>
    simp only [List.flatMap_cons, List.length_append, List.length_cons, ih, hexByte,
      List.length_nil]
    omega

theorem flatMap_hexByte_digits (l : List (Fin 256)) :
    ∀ c ∈ l.flatMap hexByte, c ∈ hextable := by
  induction l with
  | nil => intro c hc; simp at hc
  | cons v vs ih =>
    intro c hc
    simp only [List.flatMap_cons, List.mem_append] at hc
    rcases hc with hc | hc
    · simp only [hexByte, List.mem_cons, List.mem_singleton, List.not_mem_nil, or_false] at hc
      rcases hc with rfl | rfl
      · exact (hexByte_digits v).1
      · exact (hexByte_digits v).2
    · exact ih c hc

theorem DecodeChars_flatMap_hexByte (l : List (Fin 256)) :
    DecodeChars (l.flatMap hexByte) = l.map Fin.val := by
  induction l with
  | nil => rfl
  | cons v vs ih =>
    rw [List.flatMap_cons, List.map_cons, ← ih, ← unhexByte_hexByte v]
    rfl

theorem flatMap_hexByte_injective (a b : List (Fin 256))
    (h : a.flatMap hexByte = b.flatMap hexByte) : a = b := by
  have h2 : a.map Fin.val = b.map Fin.val := by
    rw [← DecodeChars_flatMap_hexByte, ← DecodeChars_flatMap_hexByte, h]
  exact List.map_injective_iff.mpr Fin.val_injective h2

set_option maxRecDepth 100000 in
theorem hexByte_of_digits : ∀ i j : Fin 16,
    hexByte ⟨16 * i.val + j.val, by omega⟩
      = [hextable.getD i.val '0', hextable.getD j.val '0'] := by
  decide

theorem hextable_index (c : Char) (hc : c ∈ hextable) :
    ∃ i : Fin 16, c = hextable.getD i.val '0' := by
  obtain ⟨i, hi, rfl⟩ := List.mem_iff_getElem.mp hc
  have hi16 : i < 16 := hi
  exact ⟨⟨i, hi16⟩, by simp [List.getD_eq_getElem, hi]⟩

theorem flatMap_hexByte_surjective :
    ∀ (n : Nat) (cs : List Char), cs.length = 2 * n → (∀ c ∈ cs, c ∈ hextable) →
      ∃ l : List (Fin 256), l.length = n ∧ l.flatMap hexByte = cs := by
  intro n
  induction n with
  | zero =>
    intro cs hlen _
    have : cs = [] := List.length_eq_zero.mp (by omega)
    exact ⟨[], rfl, by simp [this]⟩
  | succ k ih =>
    intro cs hlen hall
    match cs, hlen, hall with
    | hi :: lo :: rest, hlen, hall =>
      obtain ⟨i, rfl⟩ := hextable_index hi (hall hi (by simp))
      obtain ⟨j, rfl⟩ := hextable_index lo (hall lo (by simp))
      obtain ⟨l, hl, hl2⟩ := ih rest (by simp at hlen; omega)
        (fun c hc => hall c (by simp [hc]))
      refine ⟨⟨16 * i.val + j.val, by omega⟩ :: l, by simp [hl], ?_⟩
      rw [List.flatMap_cons, hexByte_of_digits i j, hl2]
      rfl
    | [_], hlen, _ => simp at hlen; omega
    | [], hlen, _ => simp at hlen

/-- C12. For every 32-byte output `b` of the random source, `utils.GenerateRefreshToken`
returns, with a nil error, the string `hex.EncodeToString(b)`: it has exactly 64
characters, each of them one of `0123456789abcdef`, and reading it back two digits per
byte gives `b`. Different buffers give different tokens, and every string of 64 such
characters is the token of some buffer, so the token carries the 256 bits of the buffer
and nothing else. When the random source fails with `err`, the function returns the
empty string and `err`. -/
theorem refresh_token_wire_form :
    (∀ b : Bytes32,
      GenerateRefreshToken.returned (.ok b) = (EncodeToString b.val, none) ∧
      GenerateRefreshToken (.ok b) = .ok (EncodeToString b.val) ∧
      (EncodeToString b.val).length = 64 ∧
      (∀ c ∈ (EncodeToString b.val).toList, c ∈ hextable) ∧
      DecodeChars (EncodeToString b.val).toList = b.val.map Fin.val) ∧
    (∀ b1 b2 : Bytes32, EncodeToString b1.val = EncodeToString b2.val → b1 = b2) ∧
    (∀ s : String, s.length = 64 → (∀ c ∈ s.toList, c ∈ hextable) →
      ∃ b : Bytes32, EncodeToString b.val = s) ∧
    (∀ err : Err,
      GenerateRefreshToken.returned (.error err) = ("", some err) ∧
      GenerateRefreshToken (.error err) = .error err) := by
  refine ⟨?_, ?_, ?_, ?_⟩
  · intro b
    refine ⟨rfl, rfl, ?_, ?_, ?_⟩
    · show (b.val.flatMap hexByte).length = 64
      rw [flatMap_hexByte_length, b.property]
    · exact flatMap_hexByte_digits b.val
    · exact DecodeChars_flatMap_hexByte b.val
  · intro b1 b2 h
    apply Subtype.ext
    apply flatMap_hexByte_injective
    exact congrArg String.data h
  · intro s hlen hall
    obtain ⟨l, hl, hl2⟩ := flatMap_hexByte_surjective 32 s.toList hlen hall
    refine ⟨⟨l, hl⟩, ?_⟩
    show String.mk (l.flatMap hexByte) = s
    rw [hl2]
    rfl
  · intro err
    exact ⟨rfl, rfl⟩

/-- C12 at concrete inputs: the buffers `bytes00` and `bytesA5` and their tokens. -/
theorem refresh_token_wire_form_witness :
    GenerateRefreshToken (.ok bytesA5) = .ok tokenA5 ∧
    tokenA5.length = 64 ∧
    bytes00 ≠ bytesA5 ∧ token00 ≠ tokenA5 ∧
    (∃ b : Bytes32, EncodeToString b.val = tokenFF) :=
  ⟨(refresh_token_wire_form.1 bytesA5).2.1,
   (refresh_token_wire_form.1 bytesA5).2.2.1,
   by decide,
   fun h => absurd (refresh_token_wire_form.2.1 bytes00 bytesA5 h) (by decide),
   refresh_token_wire_form.2.2.1 tokenFF (by decide) (by decide)⟩

/-! ## Distinct token values -/

theorem liveTokens_map_sublist (f : RefreshToken → RefreshToken)
    (hT : ∀ r, (f r).Token = r.Token) (hL : ∀ r, (f r).live = true → r.live = true) :
    ∀ l : List RefreshToken,
      (((l.map f).filter RefreshToken.live).map RefreshToken.Token).Sublist
        ((l.filter RefreshToken.live).map RefreshToken.Token) := by
  intro l
  induction l with
  | nil => exact List.Sublist.slnil
  | cons x xs ih =>
    rw [List.map_cons]
    by_cases h1 : (f x).live = true
    · have h2 := hL x h1
      simp only [List.filter_cons, h1, h2, if_true, List.map_cons, hT]
      exact List.Sublist.cons₂ _ ih
    · by_cases h2 : x.live = true
      · simp only [List.filter_cons, h1, h2, if_true, Bool.false_eq_true, if_false,
          List.map_cons]
        exact List.Sublist.cons _ ih
      · simp only [List.filter_cons, h1, h2, Bool.false_eq_true, if_false]
        exact ih

theorem deleteRefreshToken_liveTokens (db : DB) (fault : Option String) (now : Time)
    (m : RefreshToken) :
    (db.deleteRefreshToken fault now m).2.liveTokens.Sublist db.liveTokens := by
  unfold DB.deleteRefreshToken
  cases fault with
  | some d => exact List.Sublist.refl _
  | none =>
    by_cases hm : m.ID = 0
    · simp only [hm, if_true]; exact List.Sublist.refl _
    · simp only [hm, if_false]
      exact liveTokens_map_sublist _ (softDeleteByID_Token now m.ID)
        (fun r h => by rw [softDeleteByID_live] at h; simp at h; exact h.1) _

theorem revokeAll_liveTokens (fault : Option String) (now : Time) (db : DB) (a : Nat) :
    (AuthService.RevokeAllRefreshTokens fault now db a).2.liveTokens.Sublist db.liveTokens := by
  unfold AuthService.RevokeAllRefreshTokens DB.deleteRefreshTokensWhereUserID
  cases fault with
  | some d => exact List.Sublist.refl _
  | none =>
    exact liveTokens_map_sublist _ (softDeleteByUser_Token now a)
      (fun r h => by rw [softDeleteByUser_live] at h; simp at h; exact h.1) _

theorem generateTokens_liveTokens (jwtConfig : JWTConfig) (env : IssueEnv) (db : DB)
    (user : User) :
    (AuthService.GenerateTokens jwtConfig env db user).2 = db ∨
    ∃ bytes, env.randRead = .ok bytes ∧
      (AuthService.GenerateTokens jwtConfig env db user).2.liveTokens
        = db.liveTokens ++ [EncodeToString bytes.val] := by
  unfold AuthService.GenerateTokens
  cases env.GenerateToken user.ID user.Email user.Role jwtConfig.Secret
      jwtConfig.AccessTokenDuration with
  | error e => exact Or.inl rfl
  | ok accessToken =>
    cases hread : env.randRead with
    | error e => exact Or.inl rfl
    | ok bytes =>
      cases hcf : env.createFault with
      | some d => exact Or.inl (by simp [GenerateRefreshToken, DB.createRefreshToken])
      | none =>
        refine Or.inr ⟨bytes, rfl, ?_⟩
        simp [GenerateRefreshToken, DB.createRefreshToken, DB.liveTokens,
          List.filter_append, RefreshToken.live]

theorem freshRead_sublist (db db1 : DB) (read : Except Err Bytes32)
    (hsub : db1.liveTokens.Sublist db.liveTokens) (h : freshRead db read = true) :
    freshRead db1 read = true := by
  unfold freshRead at h ⊢
  cases read with
  | error e => rfl
  | ok bytes =>
    simp only [Bool.not_eq_true', List.contains_eq_any_beq, List.any_eq_false, beq_iff_eq,
      Bool.not_eq_eq_eq_not, Bool.not_true] at h ⊢
    intro x hx
    exact h x (hsub.subset hx)

theorem generateTokens_distinct (jwtConfig : JWTConfig) (env : IssueEnv) (db : DB)
    (user : User) (h : db.liveTokens.Nodup) (hf : freshRead db env.randRead = true) :
    (AuthService.GenerateTokens jwtConfig env db user).2.liveTokens.Nodup := by
  rcases generateTokens_liveTokens jwtConfig env db user with heq | ⟨bytes, hread, heq⟩
  · rw [heq]; exact h
  · rw [heq]
    rw [hread] at hf
    simp only [freshRead, Bool.not_eq_true', List.contains_eq_any_beq, List.any_eq_false,
      beq_iff_eq] at hf
    rw [List.nodup_append]
    refine ⟨h, List.nodup_singleton _, ?_⟩
    intro a ha ha2
    rw [List.mem_singleton] at ha2
    exact hf a ha ha2.symm

theorem refreshTokens_distinct (jwtConfig : JWTConfig) (env : RefreshEnv) (db : DB)
    (refreshToken : String) (h : db.liveTokens.Nodup)
    (hf : freshRead db env.issue.randRead = true) :
    (AuthService.RefreshTokens jwtConfig env db refreshToken).2.liveTokens.Nodup := by
  unfold AuthService.RefreshTokens
  cases db.firstRefreshTokenWhereToken env.findTokenFault refreshToken with
  | error e => exact h
  | ok tokenModel =>
    simp only
    have hsub := deleteRefreshToken_liveTokens db env.deleteFault env.deletedAt tokenModel
    by_cases hexp : tokenModel.IsExpired env.now = true
    · simp only [hexp, if_true]
      exact hsub.nodup h
    · simp only [hexp, Bool.false_eq_true, if_false]
      cases db.firstUserByID env.findUserFault (tokenModel.UserID : Int) with
      | error e => exact h
      | ok user =>
        exact generateTokens_distinct jwtConfig env.issue _ user (hsub.nodup h)
          (freshRead_sublist db _ _ hsub hf)

theorem call_keeps_distinct (jwtConfig : JWTConfig) (db : DB) (c : Call)
    (h : db.liveTokens.Nodup) (hf : c.fresh db = true) :
    (c.run jwtConfig db).liveTokens.Nodup := by
  cases c with
  | GenerateTokens env user => exact generateTokens_distinct jwtConfig env db user h hf
  | RefreshTokens env refreshToken =>
    exact refreshTokens_distinct jwtConfig env db refreshToken h hf
  | RevokeAllRefreshTokens fault now userID =>
    exact (revokeAll_liveTokens fault now db userID).nodup h

theorem runCalls_keeps_distinct (jwtConfig : JWTConfig) :
    ∀ (calls : List Call) (db : DB), db.liveTokens.Nodup →
      freshCalls jwtConfig db calls = true → (runCalls jwtConfig db calls).liveTokens.Nodup := by
  intro calls
  induction calls with
  | nil => intro db h _; exact h
  | cons c cs ih =>
    intro db h hf
    simp only [freshCalls, Bool.and_eq_true] at hf
    exact ih (c.run jwtConfig db) (call_keeps_distinct jwtConfig db c h hf.1) hf.2

theorem countP_le_one_of_distinct (db : DB) (h : db.liveTokens.Nodup) (t : String) :
    db.refresh_tokens.countP (fun r => r.live && r.Token == t) ≤ 1 := by
  have h1 := List.nodup_iff_count_le_one.mp h t
  have h2 : db.liveTokens.count t
      = db.refresh_tokens.countP (fun r => r.live && r.Token == t) := by
    unfold DB.liveTokens
    rw [List.count, List.countP_map, List.countP_filter]
    apply List.countP_congr
    intro r _
    simp [Bool.and_comm]
  omega

/-- C11, as stated, fails. Starting from the store with one account and no refresh
token, two `GenerateTokens` calls in which the random source delivers the same 32 bytes
both succeed: the second insert is not rejected, and the store then holds two live rows
with the same token value. -/
theorem token_uniqueness_counterexample :
    dbNoTokens.refresh_tokens = [] ∧
    (AuthService.GenerateTokens sampleConfig (sampleIssue 20 bytes00)
        (AuthService.GenerateTokens sampleConfig (sampleIssue 10 bytes00) dbNoTokens alice).2
        alice).1
      = .ok { AccessToken := "jwt-for-alice@example.com", RefreshToken := token00,
              TokenType := "Bearer", ExpiresIn := 900 } ∧
    (runCalls sampleConfig dbNoTokens
        [Call.GenerateTokens (sampleIssue 10 bytes00) alice,
         Call.GenerateTokens (sampleIssue 20 bytes00) alice]).refresh_tokens
      = [{ ID := 1, UserID := 1, Token := token00, ExpiresAt := 604800000000010,
           CreatedAt := 10, DeletedAt := none },
         { ID := 2, UserID := 1, Token := token00, ExpiresAt := 604800000000020,
           CreatedAt := 20, DeletedAt := none }] ∧
    ¬ (runCalls sampleConfig dbNoTokens
        [Call.GenerateTokens (sampleIssue 10 bytes00) alice,
         Call.GenerateTokens (sampleIssue 20 bytes00) alice]).liveTokens.Nodup := by
  decide

/-- C11, amended. From any store without refresh-token rows, after any sequence of
`GenerateTokens`, `RefreshTokens` and `RevokeAllRefreshTokens` calls in which the random
bytes supplied to each call encode to a value that no live row carries when the call
starts, no two live rows have the same token value. -/
theorem token_values_distinct (jwtConfig : JWTConfig) (db0 : DB) (calls : List Call)
    (h0 : db0.refresh_tokens = [])
    (hfresh : freshCalls jwtConfig db0 calls = true) :
    (runCalls jwtConfig db0 calls).liveTokens.Nodup ∧
    ∀ t, (runCalls jwtConfig db0 calls).refresh_tokens.countP
      (fun r => r.live && r.Token == t) ≤ 1 := by
  have h : (runCalls jwtConfig db0 calls).liveTokens.Nodup :=
    runCalls_keeps_distinct jwtConfig calls db0 (by simp [DB.liveTokens, h0]) hfresh
  exact ⟨h, countP_le_one_of_distinct _ h⟩

/-- C11, amended, at a concrete input: issue `token00`, rotate it into `tokenFF`, issue
`tokenA5`, revoke everything of account 1. -/
theorem token_values_distinct_witness :
    (runCalls sampleConfig dbNoTokens
        [Call.GenerateTokens (sampleIssue 10 bytes00) alice,
         Call.RefreshTokens (sampleRefresh 20 bytesFF) token00,
         Call.GenerateTokens (sampleIssue 30 bytesA5) alice]).liveTokens
      = [tokenFF, tokenA5] ∧
    (runCalls sampleConfig dbNoTokens
        [Call.GenerateTokens (sampleIssue 10 bytes00) alice,
         Call.RefreshTokens (sampleRefresh 20 bytesFF) token00,
         Call.GenerateTokens (sampleIssue 30 bytesA5) alice,
         Call.RevokeAllRefreshTokens none 40 1]).liveTokens.Nodup :=
  ⟨by decide,
   (token_values_distinct sampleConfig dbNoTokens
      [Call.GenerateTokens (sampleIssue 10 bytes00) alice,
       Call.RefreshTokens (sampleRefresh 20 bytesFF) token00,
       Call.GenerateTokens (sampleIssue 30 bytesA5) alice,
       Call.RevokeAllRefreshTokens none 40 1] rfl (by decide)).1⟩

/-! ## Failures at the boundary -/

/-- C13. Two `Login` requests that bind and validate and whose authentication fails, for
whatever reason (unknown email, wrong password, right password on an inactive account,
or a failed lookup), get the identical response: HTTP 401, `success` false, message
"Invalid credentials", no data; the store is left as it was. Likewise two
`RefreshToken` requests whose `RefreshTokens` call fails, for whatever reason (not
found, expired, account missing, or a failed issue), both get 401 "Invalid refresh
token" with no data. -/
theorem no_failure_oracle (bcrypt : Bcrypt) (jwtConfig : JWTConfig) :
    (∀ (env1 env2 : LoginEnv) (db1 db2 : DB) (req1 req2 : LoginRequest) (e1 e2 : Err),
      env1.Bind = .ok req1 → env1.Validate req1 = none →
      AuthService.Authenticate bcrypt env1.findFault db1 req1.Email req1.Password
        = .error e1 →
      env2.Bind = .ok req2 → env2.Validate req2 = none →
      AuthService.Authenticate bcrypt env2.findFault db2 req2.Email req2.Password
        = .error e2 →
      (AuthHandler.Login bcrypt jwtConfig env1 db1).1
        = (AuthHandler.Login bcrypt jwtConfig env2 db2).1 ∧
      AuthHandler.Login bcrypt jwtConfig env1 db1
        = ({ Status := 401, Success := false, Message := "Invalid credentials",
             Data := none, Errors := none }, db1)) ∧
    (∀ (env1 env2 : RefreshTokenEnv) (db1 db2 : DB) (req1 req2 : RefreshTokenRequest)
      (e1 e2 : Err),
      env1.Bind = .ok req1 → env1.Validate req1 = none →
      (AuthService.RefreshTokens jwtConfig env1.refresh db1 req1.RefreshToken).1
        = .error e1 →
      env2.Bind = .ok req2 → env2.Validate req2 = none →
      (AuthService.RefreshTokens jwtConfig env2.refresh db2 req2.RefreshToken).1
        = .error e2 →
      (AuthHandler.RefreshToken jwtConfig env1 db1).1
        = (AuthHandler.RefreshToken jwtConfig env2 db2).1 ∧
      (AuthHandler.RefreshToken jwtConfig env1 db1).1
        = { Status := 401, Success := false, Message := "Invalid refresh token",
            Data := none, Errors := none }) := by
  have hlogin : ∀ (env : LoginEnv) (db : DB) (req : LoginRequest) (e : Err),
      env.Bind = .ok req → env.Validate req = none →
      AuthService.Authenticate bcrypt env.findFault db req.Email req.Password = .error e →
      AuthHandler.Login bcrypt jwtConfig env db
        = ({ Status := 401, Success := false, Message := "Invalid credentials",
             Data := none, Errors := none }, db) := by
    intro env db req e hb hv ha
    unfold AuthHandler.Login
    rw [hb]
    simp only [hv, ha]
    rfl
  have hrefresh : ∀ (env : RefreshTokenEnv) (db : DB) (req : RefreshTokenRequest) (e : Err),
      env.Bind = .ok req → env.Validate req = none →
      (AuthService.RefreshTokens jwtConfig env.refresh db req.RefreshToken).1 = .error e →
      (AuthHandler.RefreshToken jwtConfig env db).1
        = { Status := 401, Success := false, Message := "Invalid refresh token",
            Data := none, Errors := none } := by
    intro env db req e hb hv hr
    unfold AuthHandler.RefreshToken
    rw [hb]
    simp only [hv]
    cases hrun : AuthService.RefreshTokens jwtConfig env.refresh db req.RefreshToken with
    | mk res db' =>
      rw [hrun] at hr
      simp only at hr
      subst hr
      rfl
  constructor
  · intro env1 env2 db1 db2 req1 req2 e1 e2 hb1 hv1 ha1 hb2 hv2 ha2
    rw [hlogin env1 db1 req1 e1 hb1 hv1 ha1, hlogin env2 db2 req2 e2 hb2 hv2 ha2]
    exact ⟨rfl, rfl⟩
  · intro env1 env2 db1 db2 req1 req2 e1 e2 hb1 hv1 hr1 hb2 hv2 hr2
    rw [hrefresh env1 db1 req1 e1 hb1 hv1 hr1, hrefresh env2 db2 req2 e2 hb2 hv2 hr2]
    exact ⟨rfl, rfl⟩

/-- C13 at concrete inputs: an unknown email and a wrong password on `dbOne` and the
right password on the deactivated account of `dbInactive` get the same response, and so
do an unknown refresh token and an expired one. -/
theorem no_failure_oracle_witness :
    (AuthHandler.Login sampleBcrypt sampleConfig
        (sampleLogin "carol@example.com" "correcthorse1" 10) dbOne).1
      = (AuthHandler.Login sampleBcrypt sampleConfig
        (sampleLogin "alice@example.com" "wrong" 10) dbOne).1 ∧
    (AuthHandler.Login sampleBcrypt sampleConfig
        (sampleLogin "alice@example.com" "wrong" 10) dbOne).1
      = (AuthHandler.Login sampleBcrypt sampleConfig
        (sampleLogin "alice@example.com" "correcthorse1" 10) dbInactive).1 ∧
    (AuthHandler.RefreshToken sampleConfig (sampleRefreshRequest tokenA5 10) dbOne).1
      = (AuthHandler.RefreshToken sampleConfig (sampleRefreshRequest token00 2000) dbOne).1 :=
  ⟨((no_failure_oracle sampleBcrypt sampleConfig).1
      (sampleLogin "carol@example.com" "correcthorse1" 10)
      (sampleLogin "alice@example.com" "wrong" 10) dbOne dbOne
      { Email := "carol@example.com", Password := "correcthorse1" }
      { Email := "alice@example.com", Password := "wrong" }
      (.msg "invalid credentials") (.msg "invalid credentials")
      rfl rfl (by decide) rfl rfl (by decide)).1,
   ((no_failure_oracle sampleBcrypt sampleConfig).1
      (sampleLogin "alice@example.com" "wrong" 10)
      (sampleLogin "alice@example.com" "correcthorse1" 10) dbOne dbInactive
      { Email := "alice@example.com", Password := "wrong" }
      { Email := "alice@example.com", Password := "correcthorse1" }
      (.msg "invalid credentials") (.msg "account is inactive")
      rfl rfl (by decide) rfl rfl (by decide)).1,
   ((no_failure_oracle sampleBcrypt sampleConfig).2
      (sampleRefreshRequest tokenA5 10) (sampleRefreshRequest token00 2000) dbOne dbOne
      { RefreshToken := tokenA5 } { RefreshToken := token00 }
      (.msg "invalid refresh token") (.msg "refresh token expired")
      rfl rfl (by decide) rfl rfl (by decide)).1⟩

/-! ## Register, then log in -/

theorem readNat_writeNat (n : Nat) (rest : List Char) :
    readNat (writeNat n ++ rest) = some (n, rest) := by
  induction n with
  | zero => simp [writeNat, readNat]
  | succ k ih =>
    have h10 : ¬ ('1' = '0') := by decide
    simp [writeNat, readNat, ih, h10]

theorem readText_writeText (s rest : List Char) :
    readText (writeText s ++ rest) = some (s, rest) := by
  unfold readText writeText
  rw [List.append_assoc, readNat_writeNat]
  simp

theorem readInt_writeInt (i : Int) (rest : List Char) :
    readInt (writeInt i ++ rest) = some (i, rest) := by
  unfold writeInt
  rw [List.cons_append, readInt, readNat_writeNat]
  by_cases hi : i < 0
  · simp only [hi, if_true]
    congr 2
    omega
  · have hpm : ¬ ('+' = '-') := by decide
    simp only [hi, if_false, hpm]
    congr 2
    omega

theorem readClaims_writeClaims (c : Claims) : readClaims (writeClaims c) = some c := by
  unfold readClaims writeClaims
  rw [readNat_writeNat]
  simp only
  rw [readText_writeText]
  simp only
  rw [readText_writeText]
  simp only
  rw [readInt_writeInt]
  simp only
  have h := readInt_writeInt c.ExpiresAt []
  rw [List.append_nil] at h
  rw [h]
  simp

theorem sampleCodec_lawful : sampleCodec.lawful := by
  intro claims secret
  refine ⟨?_, ?_⟩
  · show (match readText (writeText (writeClaims claims) ++ _) with
      | none => none
      | some (p, s) => some (String.mk p, String.mk s)) = _
    rw [readText_writeText]
    rfl
  · exact readClaims_writeClaims claims

theorem sampleFraming_lawful (sign : String → String → String) :
    ({ sampleCodec with sign := sign } : TokenCodec).lawful := by
  intro claims secret
  refine ⟨?_, ?_⟩
  · show (match readText (writeText (writeClaims claims) ++ _) with
      | none => none
      | some (p, s) => some (String.mk p, String.mk s)) = _
    rw [readText_writeText]
    rfl
  · exact readClaims_writeClaims claims

theorem macCodec_lawful : macCodec.lawful :=
  sampleFraming_lawful _

/-! ## Access tokens -/

theorem validate_generated (codec : TokenCodec) (hlaw : codec.lawful) (issuedAt now : Time)
    (userID : Nat) (email role secret secret2 : String) (ttl : Duration) :
    ∃ token payload,
      GenerateToken codec issuedAt userID email role secret ttl = .ok token ∧
      payload = codec.encode { UserID := userID, Email := email, Role := role,
                               IssuedAt := issuedAt, ExpiresAt := issuedAt + ttl } ∧
      ValidateToken codec now token secret2 =
        if codec.sign secret payload ≠ codec.sign secret2 payload then
          .error .TokenSignatureMismatch
        else if issuedAt + ttl ≤ now then .error .TokenExpired
        else .ok { UserID := userID, Email := email, Role := role,
                   IssuedAt := issuedAt, ExpiresAt := issuedAt + ttl } := by
  obtain ⟨hsplit, hdecode⟩ := hlaw
    { UserID := userID, Email := email, Role := role, IssuedAt := issuedAt,
      ExpiresAt := issuedAt + ttl } secret
  refine ⟨_, _, rfl, rfl, ?_⟩
  unfold ValidateToken
  rw [hsplit]
  simp only [hdecode]

/-- C15. For every codec that reads back what it writes, every user id, email, role,
secret `S` and positive TTL: `GenerateToken` at instant `issuedAt` returns a token, and
`ValidateToken` of that token with `S` at any instant before `issuedAt + ttl` (the
issuing instant included) succeeds and returns claims whose `UserID`, `Email` and `Role`
are the values given to `GenerateToken`, with the issuing instant and the expiry
`issuedAt + ttl`. -/
theorem access_token_round_trip (codec : TokenCodec) (hlaw : codec.lawful)
    (issuedAt now : Time) (userID : Nat) (email role secret : String) (ttl : Duration)
    (hpos : 0 < ttl) (hnow : now < issuedAt + ttl) :
    ∃ token claims,
      GenerateToken codec issuedAt userID email role secret ttl = .ok token ∧
      ValidateToken codec now token secret = .ok claims ∧
      ValidateToken codec issuedAt token secret = .ok claims ∧
      claims.UserID = userID ∧ claims.Email = email ∧ claims.Role = role ∧
      claims.IssuedAt = issuedAt ∧ claims.ExpiresAt = issuedAt + ttl := by
  obtain ⟨token, payload, hgen, _, hval⟩ :=
    validate_generated codec hlaw issuedAt now userID email role secret secret ttl
  obtain ⟨token0, payload0, hgen0, _, hval0⟩ :=
    validate_generated codec hlaw issuedAt issuedAt userID email role secret secret ttl
  have htok : token0 = token := by
    rw [hgen] at hgen0
    exact (Except.ok.inj hgen0).symm
  subst htok
  refine ⟨token0, Claims.mk userID email role issuedAt (issuedAt + ttl), hgen, ?_, ?_,
    rfl, rfl, rfl, rfl, rfl⟩
  · rw [hval]
    have h1 : ¬ issuedAt + ttl ≤ now := not_le.mpr hnow
    simp [h1]
  · rw [hval0]
    have h1 : ¬ issuedAt + ttl ≤ issuedAt := not_le.mpr (lt_add_of_pos_right issuedAt hpos)
    simp [h1]

/-- C15 at a concrete input: a one-hour token of the stand-in codec, checked half an
hour after it was issued. -/
theorem access_token_round_trip_witness :
    ∃ token claims,
      GenerateToken sampleCodec 7 123 "test@example.com" "user" "test-secret" 3600
        = .ok token ∧
      ValidateToken sampleCodec 1807 token "test-secret" = .ok claims ∧
      claims.UserID = 123 ∧ claims.Email = "test@example.com" ∧ claims.Role = "user" :=
  have ⟨token, claims, h1, h2, _, h4, h5, h6, _⟩ :=
    access_token_round_trip sampleCodec sampleCodec_lawful 7 1807 123 "test@example.com"
      "user" "test-secret" 3600 (by decide) (by decide)
  ⟨token, claims, h1, h2, h4, h5, h6⟩

set_option maxRecDepth 100000 in
/-- C16, as stated, fails. The stand-in codec `macCodec` reads back what it writes, and
its signature is a keyed checksum that prepares the key as HMAC does. The secret
`secret` followed by a zero character is a different secret, yet a token generated with
`secret` is accepted by `ValidateToken` under it: the two secrets sign the payload
alike, so the check passes and the claims are returned. -/
theorem access_token_wrong_secret_counterexample :
    macCodec.lawful ∧
    secretZero ≠ "secret" ∧
    ∃ token,
      GenerateToken macCodec 7 1 "test@example.com" "user" "secret" 60 = .ok token ∧
      ValidateToken macCodec 8 token secretZero
        = .ok { UserID := 1, Email := "test@example.com", Role := "user", IssuedAt := 7,
                ExpiresAt := 67 } := by
  refine ⟨macCodec_lawful, by decide, ?_⟩
  obtain ⟨token, payload, hgen, rfl, hval⟩ :=
    validate_generated macCodec macCodec_lawful 7 8 1 "test@example.com" "user" "secret"
      secretZero 60
  refine ⟨token, hgen, ?_⟩
  rw [hval]
  decide

/-- C16, amended. For every codec that reads back what it writes, every token produced
by `GenerateToken` with secret `S` and every secret `S2`: if the signature of the
token's payload under `S2` differs from the one under `S`, `ValidateToken` with `S2`
fails with `TokenSignatureMismatch` at every instant and returns no claims; if the two
signatures are the same, `ValidateToken` with `S2` returns what it returns with `S`. -/
theorem access_token_other_secret (codec : TokenCodec) (hlaw : codec.lawful)
    (issuedAt now : Time) (userID : Nat) (email role secret secret2 : String)
    (ttl : Duration) :
    ∃ token payload,
      GenerateToken codec issuedAt userID email role secret ttl = .ok token ∧
      payload = codec.encode { UserID := userID, Email := email, Role := role,
                               IssuedAt := issuedAt, ExpiresAt := issuedAt + ttl } ∧
      (codec.sign secret2 payload ≠ codec.sign secret payload →
        ValidateToken codec now token secret2 = .error .TokenSignatureMismatch ∧
        ∀ claims, ValidateToken codec now token secret2 ≠ .ok claims) ∧
      (codec.sign secret2 payload = codec.sign secret payload →
        ValidateToken codec now token secret2 = ValidateToken codec now token secret) := by
  obtain ⟨token, payload, hgen, hpay, hval2⟩ :=
    validate_generated codec hlaw issuedAt now userID email role secret secret2 ttl
  obtain ⟨token1, payload1, hgen1, hpay1, hval1⟩ :=
    validate_generated codec hlaw issuedAt now userID email role secret secret ttl
  have htok : token1 = token := by
    rw [hgen] at hgen1
    exact (Except.ok.inj hgen1).symm
  have hp : payload1 = payload := by rw [hpay, hpay1]
  subst htok
  subst hp
  refine ⟨token1, payload1, hgen, hpay, ?_, ?_⟩
  · intro hne
    have hfail : ValidateToken codec now token1 secret2 = .error .TokenSignatureMismatch := by
      have hne2 : codec.sign secret payload1 ≠ codec.sign secret2 payload1 :=
        fun h => hne h.symm
      rw [hval2, if_pos hne2]
    refine ⟨hfail, ?_⟩
    intro claims h
    rw [hfail] at h
    exact Except.noConfusion h
  · intro heq
    rw [hval2, hval1]
    simp [heq]

set_option maxRecDepth 100000 in
/-- C16, amended, at a concrete input: a token of `macCodec` made with `secret1` and
checked with `wrong-secret`, which signs the payload differently. -/
theorem access_token_other_secret_witness :
    ∃ token,
      GenerateToken macCodec 7 1 "test@example.com" "user" "secret1" 60 = .ok token ∧
      ValidateToken macCodec 8 token "wrong-secret" = .error .TokenSignatureMismatch :=
  have ⟨token, payload, h1, h2, h3, _⟩ :=
    access_token_other_secret macCodec macCodec_lawful 7 8 1 "test@example.com" "user"
      "secret1" "wrong-secret" 60
  ⟨token, h1, (h3 (by rw [h2]; decide)).1⟩

/-- C17. For every codec that reads back what it writes and every token produced by
`GenerateToken` at instant `issuedAt` with secret `S` and TTL `d`: `ValidateToken` of the
token with `S` at any instant at or after `issuedAt + d` fails with `TokenExpired`. When
`d` is negative this holds at the issuing instant and at every later one. -/
theorem access_token_expiry (codec : TokenCodec) (hlaw : codec.lawful)
    (issuedAt now : Time) (userID : Nat) (email role secret : String) (ttl : Duration)
    (hnow : issuedAt + ttl ≤ now) :
    ∃ token,
      GenerateToken codec issuedAt userID email role secret ttl = .ok token ∧
      ValidateToken codec now token secret = .error .TokenExpired ∧
      (ttl < 0 → ∀ later, issuedAt ≤ later →
        ValidateToken codec later token secret = .error .TokenExpired) := by
  have hall : ∀ t, issuedAt + ttl ≤ t → ∃ token,
      GenerateToken codec issuedAt userID email role secret ttl = .ok token ∧
      ValidateToken codec t token secret = .error .TokenExpired := by
    intro t ht
    obtain ⟨token, payload, hgen, _, hval⟩ :=
      validate_generated codec hlaw issuedAt t userID email role secret secret ttl
    refine ⟨token, hgen, ?_⟩
    rw [hval]
    simp [ht]
  obtain ⟨token, hgen, hexp⟩ := hall now hnow
  refine ⟨token, hgen, hexp, ?_⟩
  intro hneg later hlater
  have hle : issuedAt + ttl ≤ later :=
    le_trans (add_le_of_nonpos_right (le_of_lt hneg)) hlater
  obtain ⟨token2, hgen2, hexp2⟩ := hall later hle
  have htok : token2 = token := by
    rw [hgen] at hgen2
    exact (Except.ok.inj hgen2).symm
  subst htok
  exact hexp2

/-- C17 at a concrete input: a token of the stand-in codec made with a TTL of minus one
hour and checked at the instant it was issued. -/
theorem access_token_expiry_witness :
    ∃ token,
      GenerateToken sampleCodec 5000 1 "test@example.com" "user" "secret" (-3600)
        = .ok token ∧
      ValidateToken sampleCodec 5000 token "secret" = .error .TokenExpired :=
  have ⟨token, h1, h2, _⟩ :=
    access_token_expiry sampleCodec sampleCodec_lawful 5000 5000 1 "test@example.com"
      "user" "secret" (-3600) (by decide)
  ⟨token, h1, h2⟩

/-! ## Two refreshes with the same token -/

theorem refreshTokens_steps (jwtConfig : JWTConfig) (env : RefreshEnv) (refreshToken : String)
    (db : DB) :
    AuthService.RefreshTokens.steps jwtConfig env refreshToken 4 (.start, db)
      = (.returned (AuthService.RefreshTokens jwtConfig env db refreshToken).1,
         (AuthService.RefreshTokens jwtConfig env db refreshToken).2) := by
  simp only [AuthService.RefreshTokens.steps, AuthService.RefreshTokens.step,
    AuthService.RefreshTokens]
  cases db.firstRefreshTokenWhereToken env.findTokenFault refreshToken with
  | error e => rfl
  | ok tokenModel =>
    simp only
    by_cases hexp : tokenModel.IsExpired env.now = true
    · simp only [hexp, if_true, AuthService.RefreshTokens.step]
    · simp only [hexp, Bool.false_eq_true, if_false, AuthService.RefreshTokens.step]
      cases db.firstUserByID env.findUserFault (tokenModel.UserID : Int) with
      | error e => rfl
      | ok user => rfl

/-- C18 at its failing input. Two `RefreshTokens` calls present `token00` on `dbOne`,
every statement executed, the random source giving the first call `bytesFF` and the
second `bytesA5`. When their statements alternate (lookup, lookup, user lookup, user
lookup, delete, delete, insert, insert) both calls return a token pair, and the store
ends with two live rows minted from the one consumed token. When the first call runs to
its end before the second starts, the second fails with "invalid refresh token". -/
theorem concurrent_refresh_both_succeed :
    runTwoRefreshes sampleConfig (sampleRefresh 10 bytesFF) (sampleRefresh 10 bytesA5)
        token00 token00 [false, true, false, true, false, true, false, true]
        (.start, .start, dbOne)
      = (.returned (.ok { AccessToken := "jwt-for-alice@example.com",
                          RefreshToken := tokenFF, TokenType := "Bearer",
                          ExpiresIn := 900 }),
         .returned (.ok { AccessToken := "jwt-for-alice@example.com",
                          RefreshToken := tokenA5, TokenType := "Bearer",
                          ExpiresIn := 900 }),
         { dbOne with
           refresh_tokens :=
             [{ ID := 1, UserID := 1, Token := token00, ExpiresAt := 1000, CreatedAt := 0,
                DeletedAt := some 10 },
              { ID := 2, UserID := 1, Token := tokenFF, ExpiresAt := 604800000000010,
                CreatedAt := 10, DeletedAt := none },
              { ID := 3, UserID := 1, Token := tokenA5, ExpiresAt := 604800000000010,
                CreatedAt := 10, DeletedAt := none }],
           refresh_tokens_seq := 3 }) ∧
    (runTwoRefreshes sampleConfig (sampleRefresh 10 bytesFF) (sampleRefresh 10 bytesA5)
        token00 token00 [false, false, false, false, true, true, true, true]
        (.start, .start, dbOne)).2.1
      = .returned (.error (.msg "invalid refresh token")) := by
  decide

theorem generateTokens_result_any_store (jwtConfig : JWTConfig) (env : IssueEnv)
    (db1 db2 : DB) (user : User) :
    (AuthService.GenerateTokens jwtConfig env db1 user).1
      = (AuthService.GenerateTokens jwtConfig env db2 user).1 := by
  unfold AuthService.GenerateTokens
  cases env.GenerateToken user.ID user.Email user.Role jwtConfig.Secret
      jwtConfig.AccessTokenDuration with
  | error e => rfl
  | ok accessToken =>
    cases GenerateRefreshToken env.randRead with
    | error e => rfl
    | ok refreshToken =>
      cases hcf : env.createFault with
      | some d => simp [DB.createRefreshToken]
      | none => simp [DB.createRefreshToken]

/-- Whenever each of two `RefreshTokens` calls presenting the same token would succeed
when run on its own on a store, both succeed when their statements alternate. -/
theorem alternating_refreshes_both_succeed (jwtConfig : JWTConfig) (envA envB : RefreshEnv)
    (db : DB) (refreshToken : String) (respA respB : TokenResponse)
    (hA : (AuthService.RefreshTokens jwtConfig envA db refreshToken).1 = .ok respA)
    (hB : (AuthService.RefreshTokens jwtConfig envB db refreshToken).1 = .ok respB) :
    (runTwoRefreshes jwtConfig envA envB refreshToken refreshToken
        [false, true, false, true, false, true, false, true] (.start, .start, db)).1
      = .returned (.ok respA) ∧
    (runTwoRefreshes jwtConfig envA envB refreshToken refreshToken
        [false, true, false, true, false, true, false, true] (.start, .start, db)).2.1
      = .returned (.ok respB) := by
  obtain ⟨tmA, userA, hfindA, hexpA, huserA, hrunA⟩ :=
    refreshTokens_ok jwtConfig envA db refreshToken respA hA
  obtain ⟨tmB, userB, hfindB, hexpB, huserB, hrunB⟩ :=
    refreshTokens_ok jwtConfig envB db refreshToken respB hB
  rw [hrunA] at hA
  rw [hrunB] at hB
  have hexpA2 : tmA.IsExpired envA.now = false := by
    simpa [RefreshToken.IsExpired] using hexpA
  have hexpB2 : tmB.IsExpired envB.now = false := by
    simpa [RefreshToken.IsExpired] using hexpB
  simp only [runTwoRefreshes, AuthService.RefreshTokens.step, hfindA, hfindB, hexpA2, hexpB2,
    huserA, huserB, Bool.false_eq_true, if_false]
  constructor
  · rw [generateTokens_result_any_store jwtConfig envA.issue _
      (db.deleteRefreshToken envA.deleteFault envA.deletedAt tmA).2 userA, hA]
  · rw [generateTokens_result_any_store jwtConfig envB.issue _
      (db.deleteRefreshToken envB.deleteFault envB.deletedAt tmB).2 userB, hB]

end GoBase
